import Mathlib

/-!
Verification development for the sealteam agent-team orchestrator.

The TypeScript sources are shallowly embedded: pure functions become Lean
functions, the stateful life loop becomes a fuel-indexed state-passing
function, the Valkey list server becomes an explicit store from keys to
message lists, and the LLM plus the JavaScript `JSON.parse` primitive are
modelled as environment-supplied oracles.  JavaScript numbers that hold
token counts, iteration indices and timestamps are modelled as `Nat`/`Int`.
-/

namespace SealTeam

/-! ## JSON values

In-memory JavaScript values that flow through `IterationState.input` /
`IterationState.output`, parsed LLM replies, and message payloads are
modelled by a single JSON-like value type. -/

inductive JsonValue where
  | null
  | bool (b : Bool)
  | num (n : Int)
  | str (s : String)
  | arr (xs : List JsonValue)
  | obj (fields : List (String × JsonValue))

/-- Escape one character the way `JSON.stringify` does (minimal set). -/
def jsonEscChar (c : Char) : String :=
  if c = '"' then "\\\""
  else if c = '\\' then "\\\\"
  else if c = '\n' then "\\n"
  else String.singleton c

/-- Quote a string as a JSON string literal. -/
def jsonQuote (s : String) : String :=
  "\"" ++ String.join (s.toList.map jsonEscChar) ++ "\""

mutual

/-- `JSON.stringify` (compact form, no spacing). -/
def jsonStringify : JsonValue → String
  | .null => "null"
  | .bool true => "true"
  | .bool false => "false"
  | .num n => toString n
  | .str s => jsonQuote s
  | .arr xs => "[" ++ String.intercalate "," (jsonStringifyList xs) ++ "]"
  | .obj fs => "\x7b" ++ String.intercalate "," (jsonStringifyFields fs) ++ "\x7d"

def jsonStringifyList : List JsonValue → List String
  | [] => []
  | x :: xs => jsonStringify x :: jsonStringifyList xs

def jsonStringifyFields : List (String × JsonValue) → List String
  | [] => []
  | (k, v) :: fs => (jsonQuote k ++ ":" ++ jsonStringify v) :: jsonStringifyFields fs

end

mutual

/-- JavaScript string coercion as it happens inside template literals
(`String(value)`): objects display as `[object Object]`, arrays join their
displayed elements with commas. -/
def jsDisplay : JsonValue → String
  | .null => "null"
  | .bool true => "true"
  | .bool false => "false"
  | .num n => toString n
  | .str s => s
  | .arr xs => String.intercalate "," (jsDisplayList xs)
  | .obj _ => "[object Object]"

def jsDisplayList : List JsonValue → List String
  | [] => []
  | x :: xs => jsDisplay x :: jsDisplayList xs

end

/-- JavaScript truthiness of a JSON value. -/
def jsTruthy : JsonValue → Bool
  | .null => false
  | .bool b => b
  | .num n => n ≠ 0
  | .str s => s ≠ ""
  | .arr _ => true
  | .obj _ => true

/-- Property access `value.key` on an object: `none` models `undefined`
(missing key, or receiver not an object). Objects keep the first binding of
a key, as JavaScript object literals have unique keys. -/
def jsGet (v : JsonValue) (key : String) : Option JsonValue :=
  match v with
  | .obj fields => (fields.find? (fun f => f.1 = key)).map (·.2)
  | _ => none

/-- `value.key` when a string is expected (`typeof x === "string"` guards). -/
def jsGetStr (v : JsonValue) (key : String) : Option String :=
  match jsGet v key with
  | some (.str s) => some s
  | _ => none

/-- `typeof v === "object" && v` (truthy object check: objects and arrays,
null excluded). -/
def jsIsObj : JsonValue → Bool
  | .obj _ => true
  | .arr _ => true
  | _ => false

/-- The JavaScript `??` operator over an optional property value:
`undefined` and `null` fall through to the default. -/
def jsCoalesce (v : Option JsonValue) (dflt : JsonValue) : JsonValue :=
  match v with
  | none => dflt
  | some .null => dflt
  | some w => w

/-! ## Core data model (src/types.ts) -/

inductive MessageType where
  | task | status | review | complete | error | cancel | allComplete
deriving DecidableEq, Repr

/-- Serialized form of a message type (the string used on the wire). -/
def MessageType.toStr : MessageType → String
  | .task => "task"
  | .status => "status"
  | .review => "review"
  | .complete => "complete"
  | .error => "error"
  | .cancel => "cancel"
  | .allComplete => "all-complete"

structure QueueMessage where
  id : String
  «from» : String
  «to» : String
  type : MessageType
  content : String
  timestamp : Int
deriving DecidableEq, Repr

/-- Agent configuration. `maxToolTurns` appears in the leader configuration
built by `main` (index.ts) even though the life loop reads only the module
constant; it is carried here so claims about it can be stated. -/
structure AgentConfig where
  name : String
  role : String
  purpose : String
  tools : List String
  model : String
  tokenBudget : Nat
  maxIterations : Nat
  maxToolTurns : Nat
  workspacePath : String
  valkeyUrl : String
deriving DecidableEq, Repr

inductive StepType where
  | plan | execute | planExecute | reflect
deriving DecidableEq, Repr

/-- The string form used in state file names and resume tokens. -/
def StepType.toStr : StepType → String
  | .plan => "plan"
  | .execute => "execute"
  | .planExecute => "plan-execute"
  | .reflect => "reflect"

structure TokenUsage where
  input : Nat
  output : Nat
deriving DecidableEq, Repr

inductive Complexity where
  | simple | complex
deriving DecidableEq, Repr

structure IterationState where
  iteration : Int
  step : StepType
  timestamp : Int
  input : JsonValue
  output : JsonValue
  tokensUsed : TokenUsage
  complexity : Option Complexity

/-- Reflect-step outcome. `summary` keeps the raw parsed JSON (the source
casts `parsed.summary` without validating), the optional fields keep the
raw property values. -/
inductive DecisionType where
  | continue' | complete | error
deriving DecidableEq, Repr

structure ReflectDecision where
  decision : DecisionType
  summary : JsonValue
  nextMessage : Option JsonValue
  errorDetails : Option JsonValue
  selfRecoveryAttempt : Option JsonValue

inductive AgentStatus where
  | running | completed | failed | cancelled
deriving DecidableEq, Repr

structure AgentSessionEntry where
  config : AgentConfig
  pid : Int
  status : AgentStatus
  startTime : Int
  endTime : Option Int
deriving DecidableEq, Repr

inductive SessionStatus where
  | running | completed | failed
deriving DecidableEq, Repr

structure SessionState where
  goal : String
  startTime : Int
  workspace : String
  valkeyUrl : String
  agents : List AgentSessionEntry
  status : SessionStatus
deriving DecidableEq, Repr

/-! ## Claude client content blocks (src/claude-client.ts) -/

inductive ContentBlock where
  | text (text : String)
  | toolUse (id : String) (name : String) (input : JsonValue)
  | other

/-- `getTextContent`: join the text blocks of a response with newlines. -/
def getTextContent (content : List ContentBlock) : String :=
  String.intercalate "\n" (content.filterMap fun b =>
    match b with
    | .text t => some t
    | _ => none)

/-- `getToolUseBlocks`: the tool_use blocks of a response. -/
def getToolUseBlocks (content : List ContentBlock) : List (String × String × JsonValue) :=
  content.filterMap fun b =>
    match b with
    | .toolUse id name input => some (id, name, input)
    | _ => none

/-- A content block as the JSON value `JSON.stringify` would see. -/
def contentBlockToJson : ContentBlock → JsonValue
  | .text t => .obj [("type", .str "text"), ("text", .str t)]
  | .toolUse id name input =>
      .obj [("type", .str "tool_use"), ("id", .str id), ("name", .str name), ("input", input)]
  | .other => .obj [("type", .str "other")]

/-- Context-window sizes per model family, with the default fallback. -/
def CONTEXT_LIMITS : List (String × Nat) :=
  [("claude-opus-4-6", 200000), ("claude-sonnet-4-6", 200000)]

def DEFAULT_CONTEXT_LIMIT : Nat := 200000

def getContextLimit (model : String) : Nat :=
  ((CONTEXT_LIMITS.find? (fun p => p.1 = model)).map (·.2)).getD DEFAULT_CONTEXT_LIMIT

/-! ## Context manager (src/context-manager.ts) -/

def FULL_DETAIL_WINDOW : Int := 5
def TRIM_TOOL_RESULTS_AFTER : Int := 3
def TRIM_KEEP_LINES : Nat := 200

inductive Role where
  | user | assistant
deriving DecidableEq, Repr

/-- A tool_result block sent back to the model. -/
structure ToolResultBlock where
  toolUseId : String
  content : String

inductive MPContent where
  | str (s : String)
  | assistantBlocks (bs : List ContentBlock)
  | toolResults (rs : List ToolResultBlock)

structure MessageParam where
  role : Role
  content : MPContent

def truncateStr (str : String) (maxLen : Nat) : String :=
  if str.length ≤ maxLen then str else str.take maxLen ++ "..."

/-- Keep only the first and last `TRIM_KEEP_LINES` lines of an over-long
text, with an omission notice in between. -/
def trimLargeText (text : String) : String :=
  let lines := text.splitOn "\n"
  if lines.length ≤ TRIM_KEEP_LINES * 2 then text
  else
    let omitted := lines.length - TRIM_KEEP_LINES * 2
    String.intercalate "\n"
      (lines.take TRIM_KEEP_LINES
        ++ ["\n[... " ++ toString omitted ++ " lines omitted ...]\n"]
        ++ lines.drop (lines.length - TRIM_KEEP_LINES))

mutual

/-- Recursively trim large text fields inside a value. -/
def trimOutputValue : JsonValue → JsonValue
  | .str s => .str (trimLargeText s)
  | .arr xs => .arr (trimOutputValueList xs)
  | .obj fs => .obj (trimOutputValueFields fs)
  | v => v

def trimOutputValueList : List JsonValue → List JsonValue
  | [] => []
  | x :: xs => trimOutputValue x :: trimOutputValueList xs

def trimOutputValueFields : List (String × JsonValue) → List (String × JsonValue)
  | [] => []
  | (k, v) :: fs => (k, trimOutputValue v) :: trimOutputValueFields fs

end

/-- Trim tool results in a state's output and input. -/
def trimToolResults (state : IterationState) : IterationState :=
  { state with output := trimOutputValue state.output, input := trimOutputValue state.input }

/-- Reduce a state to a minimal summarized form. -/
def summarizeState (state : IterationState) : IterationState :=
  { state with
    input := .str (truncateStr (jsonStringify state.input) 300)
    output := .str (truncateStr (jsonStringify state.output) 300) }

/-- `compactIterations`: summarize old iterations, trim semi-old ones,
keep recent ones as-is; returns a new list. -/
def compactIterations (iterations : List IterationState) (currentIteration : Int) :
    List IterationState :=
  let oldCutoff := currentIteration - FULL_DETAIL_WINDOW
  let trimCutoff := currentIteration - TRIM_TOOL_RESULTS_AFTER
  iterations.map fun state =>
    if state.iteration ≤ oldCutoff then summarizeState state
    else if state.iteration ≤ trimCutoff then trimToolResults state
    else state

/-- The states of one iteration, in list order (the `Map` in
`groupByIteration` preserves push order within a group). -/
def statesOfIteration (states : List IterationState) (i : Int) : List IterationState :=
  states.filter (fun s => s.iteration == i)

/-- The distinct iteration numbers of a state list, sorted ascending (the
source collects `Map` keys in first-occurrence order and sorts them with
`(a, b) => a - b`; on distinct numbers any stable sort gives the same
ascending list). -/
def iterationNumbersOf (states : List IterationState) : List Int :=
  ((states.map (·.iteration)).eraseDups).insertionSort (· ≤ ·)

/-- The extracted view of an iteration summary: the fields the context
assembly renders, with JavaScript template-literal string coercion already
applied. -/
structure SummaryView where
  plan : String
  outcome : String
  filesChanged : List String
  decisions : List String

/-- Display of a possibly-missing property inside a template literal. -/
def jsDisplayOpt : Option JsonValue → String
  | none => "undefined"
  | some v => jsDisplay v

/-- The elements of a property expected to hold a string array, displayed.
A missing or non-array property yields the empty list (the JavaScript code
would throw on `.length` there; no caller produces that shape). -/
def jsGetStrArr (v : JsonValue) (key : String) : List String :=
  match jsGet v key with
  | some (.arr xs) => xs.map jsDisplay
  | _ => []

/-- `extractSummary`: prefer the reflect output's `summary` object, else
build a minimal fallback from the plan/execute states. Every branch
returns a value, so the result is always `some`. -/
def extractSummary (states : List IterationState) (_iteration : Int) : Option SummaryView :=
  let reflectState := states.find? (fun s => s.step == StepType.reflect)
  match reflectState.bind (fun rs =>
      if jsIsObj rs.output then
        match jsGet rs.output "summary" with
        | some sv => if jsIsObj sv then some sv else none
        | none => none
      else none) with
  | some sv =>
      some { plan := jsDisplayOpt (jsGet sv "plan")
             outcome := jsDisplayOpt (jsGet sv "outcome")
             filesChanged := jsGetStrArr sv "filesChanged"
             decisions := jsGetStrArr sv "decisions" }
  | none =>
      let planState := states.find? (fun s => s.step == StepType.plan || s.step == StepType.planExecute)
      let executeState := states.find? (fun s => s.step == StepType.execute || s.step == StepType.planExecute)
      some { plan := match planState with
               | some ps => truncateStr (jsonStringify ps.output) 200
               | none => "Unknown"
             outcome := match executeState with
               | some es => truncateStr (jsonStringify es.output) 200
               | none => match reflectState with
                 | some rs => truncateStr (jsonStringify rs.output) 200
                 | none => "Unknown"
             filesChanged := []
             decisions := [] }

/-- The one-line "[Iteration i summary] ..." user message text. -/
def summaryLine (iterNum : Int) (s : SummaryView) : String :=
  "[Iteration " ++ toString iterNum ++ " summary] Plan: " ++ s.plan
    ++ " | Outcome: " ++ s.outcome
    ++ (if s.filesChanged.length > 0 then " | Files: " ++ String.intercalate ", " s.filesChanged else "")
    ++ (if s.decisions.length > 0 then " | Decisions: " ++ String.intercalate "; " s.decisions else "")

/-- The assistant acknowledgement paired with a summary. -/
def summaryAck (iterNum : Int) : String :=
  "Acknowledged iteration " ++ toString iterNum ++ " summary."

def formatStateInput (state : IterationState) (shouldTrim : Bool) : String :=
  let label := "[Iteration " ++ toString state.iteration ++ " - " ++ state.step.toStr ++ " input]"
  let content := jsonStringify state.input
  label ++ "\n" ++ (if shouldTrim then trimLargeText content else content)

def formatStateOutput (state : IterationState) (shouldTrim : Bool) : String :=
  let label := "[Iteration " ++ toString state.iteration ++ " - " ++ state.step.toStr ++ " output]"
  let content := jsonStringify state.output
  label ++ "\n" ++ (if shouldTrim then trimLargeText content else content)

/-- The two context messages contributed by one old (summarized) iteration. -/
def summaryMessages (states : List IterationState) (i : Int) : List MessageParam :=
  match extractSummary (statesOfIteration states i) i with
  | some s => [⟨.user, .str (summaryLine i s)⟩, ⟨.assistant, .str (summaryAck i)⟩]
  | none => []

/-- The context messages contributed by one recent (full-detail) iteration. -/
def detailMessages (states : List IterationState) (trimCutoff : Int) (i : Int) :
    List MessageParam :=
  (statesOfIteration states i).flatMap fun st =>
    [⟨.user, .str (formatStateInput st (decide (i ≤ trimCutoff)))⟩,
     ⟨.assistant, .str (formatStateOutput st (decide (i ≤ trimCutoff)))⟩]

/-- The first `for` loop of `assembleContext`: summaries of old
iterations, stopping (`break`) at the first iteration newer than the
cutoff. -/
def assembleOldLoop (states : List IterationState) (oldCutoff : Int) :
    List Int → List MessageParam
  | [] => []
  | i :: rest =>
      if i > oldCutoff then []
      else summaryMessages states i ++ assembleOldLoop states oldCutoff rest

/-- The second `for` loop of `assembleContext`: full detail of recent
iterations, skipping (`continue`) iterations at or below the cutoff. -/
def assembleRecentLoop (states : List IterationState) (oldCutoff trimCutoff : Int) :
    List Int → List MessageParam
  | [] => []
  | i :: rest =>
      (if i ≤ oldCutoff then [] else detailMessages states trimCutoff i)
        ++ assembleRecentLoop states oldCutoff trimCutoff rest

/-- The trailing user message holding the current queue messages. -/
def currentMessagesText (currentMessages : List QueueMessage) : String :=
  String.intercalate "\n\n" (currentMessages.map fun m =>
    "[Message from " ++ m.from ++ "] (type: " ++ m.type.toStr ++ ") " ++ m.content)

/-- `assembleContext`: summaries of old iterations, full detail of recent
iterations, then the current queue messages. -/
def assembleContext (iterationStates : List IterationState)
    (currentMessages : List QueueMessage) (currentIteration : Int) : List MessageParam :=
  let iterationNumbers := iterationNumbersOf iterationStates
  let oldCutoff := currentIteration - FULL_DETAIL_WINDOW
  let trimCutoff := currentIteration - TRIM_TOOL_RESULTS_AFTER
  assembleOldLoop iterationStates oldCutoff iterationNumbers
    ++ assembleRecentLoop iterationStates oldCutoff trimCutoff iterationNumbers
    ++ (if currentMessages.length > 0 then [⟨.user, .str (currentMessagesText currentMessages)⟩] else [])

/-- `estimateMessagesTokens`: the chars/4 heuristic. -/
def estimateMessagesTokens (messages : List MessageParam) : Nat :=
  let chars := messages.foldl (fun acc msg =>
    acc + match msg.content with
    | .str s => s.length
    | .assistantBlocks bs =>
        bs.foldl (fun a b => a + match b with | .text t => t.length | _ => 100) 0
    | .toolResults rs => rs.foldl (fun a _ => a + 100) 0) 0
  (chars + 3) / 4

inductive CompactionLevel where
  | noCompaction | soft | hard
deriving DecidableEq, Repr

/-- `checkCompactionNeeded`: utilization estimate/limit against the 0.70
soft and 0.90 hard ratios (stated over naturals: `e/l ≥ 9/10` iff
`10*e ≥ 9*l`). -/
def checkCompactionNeeded (estimate limit : Nat) : CompactionLevel :=
  if 10 * estimate ≥ 9 * limit then .hard
  else if 10 * estimate ≥ 7 * limit then .soft
  else .noCompaction

/-! ## State store (src/state-manager.ts)

The state directory of one agent is modelled as a partial map from
(iteration, step) to the stored state; `readIterationState` is lookup. -/

def StateDir := Int → StepType → Option IterationState

def readIterationState (dir : StateDir) (iteration : Int) (step : StepType) :
    Option IterationState :=
  dir iteration step

/-! ## Message bus (src/message-queue.ts)

The Valkey list server is modelled as a map from keys to lists of
messages; JSON serialization on the wire is the identity (write then read
round-trips).  The head of a list is its most recently pushed (left) end;
`rpop`/`brpop` take from the right end. -/

def RedisState := String → List QueueMessage

def queueKey (name : String) : String := "queue:" ++ name

def lpush (s : RedisState) (key : String) (v : QueueMessage) : RedisState :=
  fun k => if k = key then v :: s k else s k

def rpop (s : RedisState) (key : String) : Option QueueMessage × RedisState :=
  match (s key).getLast? with
  | none => (none, s)
  | some v => (some v, fun k => if k = key then (s key).dropLast else s k)

/-- Blocking pop (`brpop` with timeout): in this single-process model no
producer runs during the block, so it behaves as `rpop` (null after the
timeout when the queue is empty). -/
def receive (s : RedisState) (agentName : String) : Option QueueMessage × RedisState :=
  rpop s (queueKey agentName)

/-- Non-blocking pop. -/
def receiveNonBlocking (s : RedisState) (agentName : String) :
    Option QueueMessage × RedisState :=
  rpop s (queueKey agentName)

/-- The pushes performed by `MessageQueue.send`: fan-out over the running
agents (excluding the sender) for `to = "shared"`, a single push to
`queue:<to>` otherwise.  `readSession` models `readSessionState` on the
workspace path. -/
def sendPushes (message : QueueMessage) (workspacePath : Option String)
    (readSession : String → Option SessionState) :
    Except String (List (String × QueueMessage)) :=
  if message.to = "shared" then
    match workspacePath with
    | none =>
        .error "workspacePath is required for shared messages (needed to read session.json)"
    | some w =>
        match readSession w with
        | none => .error ("Cannot fan-out shared message: session.json not found in " ++ w)
        | some session =>
            let activeAgents := session.agents.filter fun a =>
              a.status == AgentStatus.running && a.config.name != message.from
            .ok (activeAgents.map fun agent =>
              (queueKey agent.config.name, { message with «to» := agent.config.name }))
  else
    .ok [(queueKey message.to, message)]

def applyPushes (s : RedisState) (pushes : List (String × QueueMessage)) : RedisState :=
  pushes.foldl (fun st p => lpush st p.1 p.2) s

/-- `MessageQueue.send` as a state transformer. -/
def send (message : QueueMessage) (workspacePath : Option String)
    (readSession : String → Option SessionState) (s : RedisState) :
    Except String RedisState :=
  (sendPushes message workspacePath readSession).map (applyPushes s)

/-- The order in which repeated `rpop` empties a list: last element first. -/
def rpopAll : List QueueMessage → List QueueMessage
  | [] => []
  | x :: xs => rpopAll xs ++ [x]

/-! ## Crash recovery (src/life-loop.ts `recoverState`) -/

/-- `parseInt` on a string of decimal digits. -/
def digitsToNat (digits : List Char) : Nat :=
  digits.foldl (fun acc c => acc * 10 + (c.toNat - 48)) 0

/-- The `^(\d+)-(.+)$` match on a resume token: a maximal nonempty digit
run, a dash, a nonempty remainder. -/
def parseResumeToken (s : String) : Option (Nat × String) :=
  let chars := s.toList
  let digits := chars.takeWhile Char.isDigit
  if digits.isEmpty then none
  else
    match chars.drop digits.length with
    | '-' :: restTail =>
        if restTail.isEmpty then none
        else some (digitsToNat digits, String.mk restTail)
    | _ => none

structure RecoverResult where
  states : List IterationState
  iteration : Nat
  lastComplexity : Complexity

/-- The states loaded by `recoverState`: every existing state file for
iterations `1..i`, in (iteration, step) order. -/
def loadedStates (dir : StateDir) (resumeIteration : Nat) : List IterationState :=
  (List.range resumeIteration).flatMap fun k =>
    [StepType.plan, StepType.execute, StepType.planExecute, StepType.reflect].filterMap
      fun step => readIterationState dir (k + 1 : Nat) step

/-- `recoverState`: load every state file for iterations `1..i` in step
order; resuming from a reflect step continues at `i+1` with the last
loaded state's complexity (default complex), any other step re-runs
iteration `i` with complexity complex. -/
def recoverState (dir : StateDir) (resumeFrom : String) : RecoverResult :=
  match parseResumeToken resumeFrom with
  | none => ⟨[], 1, .complex⟩
  | some (resumeIteration, resumeStep) =>
      let allStates := loadedStates dir resumeIteration
      if resumeStep = "reflect" then
        ⟨allStates, resumeIteration + 1,
          (allStates.getLast?.bind (·.complexity)).getD .complex⟩
      else
        ⟨allStates, resumeIteration, .complex⟩

/-! ## Prompt templates (src/prompts.ts) -/

def planPrompt (config : AgentConfig) : String :=
  "You are \"" ++ config.name ++ "\", an AI agent with the following role:\n\n"
    ++ config.role ++ "\n\nYour purpose (completion condition):\n" ++ config.purpose
    ++ "\n\nAvailable tools: " ++ String.intercalate ", " config.tools
    ++ "\n\n## Instructions\n\nAnalyze the current situation and create a plan for what to do this iteration. Consider:\n- What has been accomplished so far\n- What the current message or task requires\n- What tools you have available\n- Whether the task is simple or complex\n\n## Output Format\n\nYou MUST respond with valid JSON only (no markdown, no extra text):\n\n\x7b\n  \"plan\": \"Description of what you will do this iteration\",\n  \"reasoning\": \"Why this is the right approach\",\n  \"complexity\": \"simple\" | \"complex\",\n  \"steps\": [\"step 1\", \"step 2\", ...]\n\x7d\n\nSet complexity to \"simple\" if the next step is straightforward — a single file write, a simple shell command, a short message. The system will collapse your plan and execution into a single call next iteration to save time and tokens.\n\nSet complexity to \"complex\" for multi-step operations, ambiguous requirements, or anything that benefits from a separate planning phase."

def executePrompt (config : AgentConfig) (plan : String) : String :=
  "You are \"" ++ config.name ++ "\", an AI agent with the following role:\n\n"
    ++ config.role ++ "\n\nYour purpose (completion condition):\n" ++ config.purpose
    ++ "\n\n## Plan to Execute\n\n" ++ plan
    ++ "\n\n## Instructions\n\nExecute the plan above using the available tools. Make tool calls as needed to accomplish each step. Be thorough and precise. If a step fails, note the failure and continue with remaining steps where possible.\n\nYour working directory is "
    ++ config.workspacePath ++ "/" ++ config.name
    ++ "/ — all commands and file paths are relative to it. Your git branch is agent/"
    ++ config.name ++ "."

def planExecutePrompt (config : AgentConfig) : String :=
  "You are \"" ++ config.name ++ "\", an AI agent with the following role:\n\n"
    ++ config.role ++ "\n\nYour purpose (completion condition):\n" ++ config.purpose
    ++ "\n\nAvailable tools: " ++ String.intercalate ", " config.tools
    ++ "\n\n## Instructions\n\nThis is a fast-path iteration. State your intent briefly, then immediately execute it using tool calls. Do both planning and execution in this single response.\n\nYour working directory is "
    ++ config.workspacePath ++ "/" ++ config.name
    ++ "/ — all commands and file paths are relative to it. Your git branch is agent/"
    ++ config.name ++ "."

def reflectPrompt (config : AgentConfig) : String :=
  "You are \"" ++ config.name ++ "\", an AI agent with the following role:\n\n"
    ++ config.role ++ "\n\nYour purpose (completion condition):\n" ++ config.purpose
    ++ "\n\n## Instructions\n\nReview the execution results from this iteration. Evaluate what happened and decide the next action.\n\n## Output Format\n\nYou MUST respond with valid JSON only (no markdown, no extra text):\n\n\x7b\n  \"decision\": \"continue\" | \"complete\" | \"error\",\n  \"summary\": \x7b\n    \"iteration\": <number>,\n    \"plan\": \"1-2 sentence summary of what was intended\",\n    \"outcome\": \"1-2 sentence summary of what actually happened\",\n    \"filesChanged\": [\"list\", \"of\", \"files\"],\n    \"decisions\": [\"key decisions made\"]\n  \x7d,\n  \"nextMessage\": \"If continuing, what to work on next (sent to your own queue)\",\n  \"errorDetails\": \"If error, describe what went wrong\"\n\x7d\n\nDecision guidelines:\n- \"continue\": More work remains to fulfill your purpose. Include a nextMessage describing the next task.\n- \"complete\": Your purpose has been fully achieved. The work is done.\n- \"error\": Something went wrong that you cannot fix on your own after multiple attempts.\n\nIMPORTANT: Only choose \"complete\" when your purpose is genuinely fulfilled, not just when a single step succeeds."

def leaderContextPrompt (maxWorkers : Nat) : String :=
  "\n## Team Leader Responsibilities\n\nYou are the team leader. Your additional responsibilities:\n\n1. **Goal Decomposition**: Break the user's goal into discrete, assignable requirements.\n2. **Team Planning**: Determine what agent roles are needed (max "
    ++ toString maxWorkers
    ++ " workers).\n3. **Agent Spawning**: Use the spawn-agent tool to create teammates. Give each agent:\n   - A clear, specific name (e.g., \"backend-dev\", \"test-writer\", \"docs-author\")\n   - A detailed role description\n   - A specific, measurable purpose (completion condition)\n   - The tools they need (typically: bash, read-file, write-file, git, send-message)\n4. **PR Review**: When agents complete and send review messages, review their work using git diff. Merge good work or send feedback.\n5. **Completion Monitoring**: Track which agents have completed. When all work is done and merged, send an \"all-complete\" message to \"main\".\n\n## Git Workflow\n- You own the main branch in your workspace directory\n- Each agent works on a branch named agent/\x7bagent-name\x7d\n- To review: use git tool to add remote, fetch, and diff\n- To merge: use git tool to merge the agent's branch\n- After merging, notify active agents via shared message so they can pull updates\n\n## Spawning Agents\nWhen spawning agents, consider:\n- Each agent should have a focused, well-defined purpose\n- Don't spawn more agents than needed\n- Agents cannot spawn other agents — only you can do that\n- Give agents the model \"claude-sonnet-4-6\" (the default)\n\n## Final Completion\nWhen all work is done and merged into main:\n1. Use send-message to send a message to \"main\" with type \"all-complete\"\n2. Include a summary of what was accomplished in the content"

/-- `buildSystemPrompt`: the leader ("bob") gets the team-management
context appended. -/
def buildSystemPrompt (config : AgentConfig) (basePrompt : String) : String :=
  if config.name = "bob" then basePrompt ++ "\n\n" ++ leaderContextPrompt 6
  else basePrompt

/-! ## Life loop (src/life-loop.ts)

The loop is embedded as a fuel-indexed state-passing function.  External
effects are supplied by a `LifeEnv`:

* `oracle` scripts the LLM — call number `k` (across the whole run)
  returns `oracle k`, mirroring the mock client of the repository's tests;
* `jsonParse` models `safeParseJson` (markdown-block extraction plus the
  JavaScript `JSON.parse` runtime primitive), returning `none` on parse
  failure;
* `execTool` models `toolRegistry.executeTool`, already folded with the
  `catch` that stringifies a handler error into an `Error: ...` result;
* `readSession` models `readSessionState` for the fan-out path of `send`.

`crypto.randomUUID()` is modelled by a deterministic counter and
`Date.now()` by the constant 0; no claim depends on either. -/

def MAX_IDLE_CYCLES : Nat := 30
def MAX_SELF_RECOVERY : Nat := 3
def MAX_TOOL_TURNS : Nat := 25

def SERVER_TOOL_NAMES : List String := ["web-search", "web-fetch"]

def isServerTool (name : String) : Bool := SERVER_TOOL_NAMES.contains name

structure CallResult where
  content : List ContentBlock
  stopReason : Option String
  usage : TokenUsage

structure LifeEnv where
  oracle : Nat → CallResult
  jsonParse : String → Option JsonValue
  execTool : String → JsonValue → String
  readSession : String → Option SessionState

structure LifeState where
  iteration : Nat
  idleCycles : Nat
  selfRecoveryAttempts : Nat
  lastComplexity : Complexity
  allStates : List IterationState
  redis : RedisState
  callIdx : Nat
  totalInput : Nat
  totalOutput : Nat
  ctxEstimate : Nat
  uuidCtr : Nat
  files : List (Nat × StepType × IterationState)
  sent : List QueueMessage
  callLog : List (String × String)

def addTokens (a b : TokenUsage) : TokenUsage :=
  ⟨a.input + b.input, a.output + b.output⟩

/-- One `claudeClient.call`: consume the next scripted response, accumulate
its usage, and record the call's label and system prompt. -/
def callClaude (env : LifeEnv) (st : LifeState) (label systemPrompt : String) :
    CallResult × LifeState :=
  let r := env.oracle st.callIdx
  (r, { st with
        callIdx := st.callIdx + 1
        totalInput := st.totalInput + r.usage.input
        totalOutput := st.totalOutput + r.usage.output
        callLog := st.callLog ++ [(label, systemPrompt)] })

/-- `ensureMessages`: make the list non-empty and user-bracketed. -/
def ensureMessages (messages : List MessageParam) (fallbackContent : String) :
    List MessageParam :=
  match messages with
  | [] => [⟨.user, .str fallbackContent⟩]
  | first :: _ =>
      let withHead :=
        if first.role ≠ Role.user then ⟨Role.user, .str fallbackContent⟩ :: messages
        else messages
      match withHead.getLast? with
      | some last =>
          if last.role ≠ Role.user then withHead ++ [⟨Role.user, .str fallbackContent⟩]
          else withHead
      | none => withHead

def queueMessageToJson (m : QueueMessage) : JsonValue :=
  .obj [("id", .str m.id), ("from", .str m.from), ("to", .str m.to),
        ("type", .str m.type.toStr), ("content", .str m.content),
        ("timestamp", .num m.timestamp)]

def DecisionType.toStr : DecisionType → String
  | .continue' => "continue"
  | .complete => "complete"
  | .error => "error"

/-- The reflect decision as the JSON object that is written to the state
file (fields holding `undefined` are absent). -/
def reflectDecisionToJson (d : ReflectDecision) : JsonValue :=
  .obj ([("decision", .str d.decision.toStr), ("summary", d.summary)]
    ++ (match d.nextMessage with | some v => [("nextMessage", v)] | none => [])
    ++ (match d.errorDetails with | some v => [("errorDetails", v)] | none => [])
    ++ (match d.selfRecoveryAttempt with | some v => [("selfRecoveryAttempt", v)] | none => []))

/-- Truthiness of an optional property value (`undefined` is falsy). -/
def optTruthy : Option JsonValue → Bool
  | none => false
  | some v => jsTruthy v

/-- `messageQueue.send` inside the loop: apply the pushes and record the
message in the send trace.  The `Bool` is false when `send` would throw
(possible only for a `shared` destination). -/
def sendViaQueue (env : LifeEnv) (st : LifeState) (msg : QueueMessage)
    (workspacePath : Option String) : LifeState × Bool :=
  match sendPushes msg workspacePath env.readSession with
  | .ok pushes =>
      ({ st with redis := applyPushes st.redis pushes, sent := st.sent ++ [msg] }, true)
  | .error _ => (st, false)

/-- Allocate the next `crypto.randomUUID()` stand-in. -/
def freshId (st : LifeState) : String × LifeState :=
  ("uuid-" ++ toString st.uuidCtr, { st with uuidCtr := st.uuidCtr + 1 })

structure StepResult where
  output : JsonValue
  tokensUsed : TokenUsage
  plan : String
  complexity : Complexity

/-- `doPlan`. -/
def doPlan (config : AgentConfig) (env : LifeEnv) (st : LifeState)
    (allStates : List IterationState) (currentMessages : List QueueMessage)
    (iteration : Nat) : StepResult × LifeState :=
  let systemPrompt := buildSystemPrompt config (planPrompt config)
  let messages := assembleContext allStates currentMessages (iteration : Int)
  let st := { st with ctxEstimate := estimateMessagesTokens messages }
  let _finalMessages := ensureMessages messages "What is your plan for this iteration?"
  let (r, st) := callClaude env st "plan" systemPrompt
  let text := getTextContent r.content
  let parsed := env.jsonParse text
  let plan := (parsed.bind (fun p => jsGetStr p "plan")).getD text
  let complexity : Complexity :=
    match parsed.bind (fun p => jsGet p "complexity") with
    | some (.str "simple") => .simple
    | _ => .complex
  let output := match parsed with | some p => p | none => .str text
  ({ output := output, tokensUsed := r.usage, plan := plan, complexity := complexity }, st)

structure ToolLoopResult where
  output : JsonValue
  tokensUsed : TokenUsage

/-- The body of `executeWithToolLoop`'s `while (turns < MAX_TOOL_TURNS)`
loop, recursing on `remaining = MAX_TOOL_TURNS - turns`. -/
def toolLoopAux (env : LifeEnv) (systemPrompt : String) :
    Nat → Nat → List MessageParam → TokenUsage → LifeState → ToolLoopResult × LifeState
  | 0, _, _, totalTokens, st =>
      ({ output := .str ("Tool loop terminated after " ++ toString MAX_TOOL_TURNS ++ " turns")
         tokensUsed := totalTokens }, st)
  | remaining + 1, turns, currentMessages, totalTokens, st =>
      let (r, st) := callClaude env st ("execute/turn-" ++ toString turns) systemPrompt
      let totalTokens := addTokens totalTokens r.usage
      let toolUseBlocks := getToolUseBlocks r.content
      if toolUseBlocks.isEmpty || r.stopReason == some "end_turn" then
        let text := getTextContent r.content
        ({ output := if text = "" then .arr (r.content.map contentBlockToJson) else .str text
           tokensUsed := totalTokens }, st)
      else
        let toolResults := toolUseBlocks.filterMap fun b =>
          if isServerTool b.2.1 then none
          else some (⟨b.1, env.execTool b.2.1 b.2.2⟩ : ToolResultBlock)
        let currentMessages := currentMessages
          ++ [⟨.assistant, .assistantBlocks r.content⟩, ⟨.user, .toolResults toolResults⟩]
        toolLoopAux env systemPrompt remaining (turns + 1) currentMessages totalTokens st

/-- `executeWithToolLoop`: the cap is the module constant
`MAX_TOOL_TURNS`; the agent configuration is not consulted. -/
def executeWithToolLoop (env : LifeEnv) (systemPrompt : String)
    (messages : List MessageParam) (st : LifeState) : ToolLoopResult × LifeState :=
  toolLoopAux env systemPrompt MAX_TOOL_TURNS 0 messages ⟨0, 0⟩ st

/-- `doExecute`. -/
def doExecute (config : AgentConfig) (env : LifeEnv) (st : LifeState)
    (allStates : List IterationState) (plan : String) (iteration : Nat) :
    StepResult × LifeState :=
  let systemPrompt := buildSystemPrompt config (executePrompt config plan)
  let messages := assembleContext allStates [] (iteration : Int)
  let st := { st with ctxEstimate := estimateMessagesTokens messages }
  let finalMessages := ensureMessages messages "Execute the plan now."
  let (result, st) := executeWithToolLoop env systemPrompt finalMessages st
  ({ output := result.output, tokensUsed := result.tokensUsed
     plan := plan, complexity := .complex }, st)

/-- `doPlanExecute` (fast path): tool loop plus complexity extraction,
defaulting to simple. -/
def doPlanExecute (config : AgentConfig) (env : LifeEnv) (st : LifeState)
    (allStates : List IterationState) (currentMessages : List QueueMessage)
    (iteration : Nat) : StepResult × LifeState :=
  let systemPrompt := buildSystemPrompt config (planExecutePrompt config)
  let messages := assembleContext allStates currentMessages (iteration : Int)
  let st := { st with ctxEstimate := estimateMessagesTokens messages }
  let finalMessages := ensureMessages messages "Proceed with the fast-path iteration."
  let (result, st) := executeWithToolLoop env systemPrompt finalMessages st
  let text := match result.output with | .str s => s | v => jsonStringify v
  let parsed := env.jsonParse text
  let complexity : Complexity :=
    match parsed.bind (fun p => jsGet p "complexity") with
    | some (.str "complex") => .complex
    | _ => .simple
  ({ output := result.output, tokensUsed := result.tokensUsed
     plan := text, complexity := complexity }, st)

structure ReflectResult where
  decision : ReflectDecision
  tokensUsed : TokenUsage
  complexity : Complexity

/-- `doReflect`: the system prompt is the plain reflect prompt — no
budget information is consulted anywhere in its construction. -/
def doReflect (config : AgentConfig) (env : LifeEnv) (st : LifeState)
    (allStates : List IterationState) (iteration : Nat) : ReflectResult × LifeState :=
  let systemPrompt := buildSystemPrompt config (reflectPrompt config)
  let messages := assembleContext allStates [] (iteration : Int)
  let st := { st with ctxEstimate := estimateMessagesTokens messages }
  let _finalMessages := ensureMessages messages "Reflect on this iteration's results."
  let (r, st) := callClaude env st "reflect" systemPrompt
  let text := getTextContent r.content
  let parsed := env.jsonParse text
  let parsedDecision : DecisionType :=
    match parsed.bind (fun p => jsGet p "decision") with
    | some (.str "continue") => .continue'
    | some (.str "complete") => .complete
    | some (.str "error") => .error
    | _ => .continue'
  let decision : ReflectDecision :=
    match parsed with
    | some p =>
        { decision := parsedDecision
          summary := jsCoalesce (jsGet p "summary")
            (.obj [("iteration", .num (iteration : Int)), ("plan", .str "Unknown"),
                   ("outcome", .str "Unknown"), ("filesChanged", .arr []),
                   ("decisions", .arr [])])
          nextMessage := jsGet p "nextMessage"
          errorDetails := jsGet p "errorDetails"
          selfRecoveryAttempt := jsGet p "selfRecoveryAttempt" }
    | none =>
        { decision := .continue'
          summary := .obj [("iteration", .num (iteration : Int)),
                           ("plan", .str "Could not parse reflection"),
                           ("outcome", .str (text.take 200)),
                           ("filesChanged", .arr []), ("decisions", .arr [])]
          nextMessage := some (.str "Retry — reflection output was not valid JSON.")
          errorDetails := none
          selfRecoveryAttempt := none }
  let planState := allStates.find? fun s =>
    s.iteration == (iteration : Int) && (s.step == StepType.plan || s.step == StepType.planExecute)
  let complexity : Complexity :=
    match planState.bind (·.complexity) with
    | some .simple => .simple
    | _ => .complex
  ({ decision := decision, tokensUsed := r.usage, complexity := complexity }, st)

/-- Record a `writeIterationState` call in the file trace. -/
def writeStateFile (st : LifeState) (iteration : Nat) (step : StepType)
    (state : IterationState) : LifeState :=
  { st with files := st.files ++ [(iteration, step, state)] }

/-- `handleCancellation`: write a final reflect state, commit best-effort
(no model effect), and notify the leader. -/
def handleCancellation (env : LifeEnv) (st : LifeState) (config : AgentConfig)
    (message : QueueMessage) : LifeState :=
  let cancelState : IterationState :=
    { iteration := (st.iteration : Int), step := .reflect, timestamp := 0
      input := queueMessageToJson message
      output := .obj [("decision", .str "complete"), ("cancelled", .bool true),
                      ("reason", .str message.content)]
      tokensUsed := ⟨0, 0⟩, complexity := none }
  let st := writeStateFile st st.iteration .reflect cancelState
  let (id, st) := freshId st
  (sendViaQueue env st
    { id := id, «from» := config.name, «to» := "bob", type := .complete
      content := jsonStringify (.obj [("cancelled", .bool true), ("reason", .str message.content)])
      timestamp := 0 } none).1

inductive LifeExit where
  | budgetExhausted | maxIterationsReached | completed | cancelled | sendFailed | outOfFuel
deriving DecidableEq, Repr

/-- The step calls, state writes and reflect decision of one iteration
(after the compaction check).  Returns the updated state and `some exit`
when the loop returns, `none` when it proceeds to the next iteration. -/
def iterationSteps (config : AgentConfig) (env : LifeEnv)
    (compactionNeeded : CompactionLevel) (st : LifeState)
    (message : QueueMessage) : LifeState × Option LifeExit :=
  let useFastPath := st.lastComplexity == Complexity.simple && st.iteration > 1
  let currentMessages := [message]
  let iteration := st.iteration
  let (iterationTokens, st) :=
    if useFastPath then
      let (peResult, st) := doPlanExecute config env st st.allStates currentMessages iteration
      let peState : IterationState :=
        { iteration := (iteration : Int), step := .planExecute, timestamp := 0
          input := .arr (currentMessages.map queueMessageToJson)
          output := peResult.output, tokensUsed := peResult.tokensUsed
          complexity := some peResult.complexity }
      let st := writeStateFile st iteration .planExecute peState
      let st := { st with allStates := st.allStates ++ [peState] }
      (addTokens ⟨0, 0⟩ peResult.tokensUsed, st)
    else
      let (planResult, st) := doPlan config env st st.allStates currentMessages iteration
      let planState : IterationState :=
        { iteration := (iteration : Int), step := .plan, timestamp := 0
          input := .arr (currentMessages.map queueMessageToJson)
          output := planResult.output, tokensUsed := planResult.tokensUsed
          complexity := some planResult.complexity }
      let st := writeStateFile st iteration .plan planState
      let st := { st with allStates := st.allStates ++ [planState] }
      let (execResult, st) := doExecute config env st st.allStates planResult.plan iteration
      let execState : IterationState :=
        { iteration := (iteration : Int), step := .execute, timestamp := 0
          input := .str planResult.plan
          output := execResult.output, tokensUsed := execResult.tokensUsed
          complexity := none }
      let st := writeStateFile st iteration .execute execState
      let st := { st with allStates := st.allStates ++ [execState] }
      (addTokens (addTokens ⟨0, 0⟩ planResult.tokensUsed) execResult.tokensUsed, st)
  let (reflectResult, st) := doReflect config env st st.allStates iteration
  let iterationTokens := addTokens iterationTokens reflectResult.tokensUsed
  let reflectState : IterationState :=
    { iteration := (iteration : Int), step := .reflect, timestamp := 0
      input := .null, output := reflectDecisionToJson reflectResult.decision
      tokensUsed := reflectResult.tokensUsed, complexity := none }
  let st := writeStateFile st iteration .reflect reflectState
  let st := { st with allStates := st.allStates ++ [reflectState] }
  let st := { st with ctxEstimate := iterationTokens.input }
  let st := { st with lastComplexity := reflectResult.complexity }
  match reflectResult.decision.decision with
  | .continue' =>
      let st := { st with selfRecoveryAttempts := 0 }
      if optTruthy reflectResult.decision.nextMessage then
        let (id, st) := freshId st
        ((sendViaQueue env st
          { id := id, «from» := config.name, «to» := config.name, type := .task
            content := jsDisplayOpt reflectResult.decision.nextMessage, timestamp := 0 }
          none).1, none)
      else (st, none)
  | .complete =>
      let (id, st) := freshId st
      let st := (sendViaQueue env st
        { id := id, «from» := config.name, «to» := "bob", type := .complete
          content := jsDisplayOpt (jsGet reflectResult.decision.summary "outcome")
          timestamp := 0 } none).1
      let st := if compactionNeeded = .soft then
          { st with allStates := compactIterations st.allStates (st.iteration : Int) }
        else st
      (st, some .completed)
  | .error =>
      let st := { st with selfRecoveryAttempts := st.selfRecoveryAttempts + 1 }
      if st.selfRecoveryAttempts ≥ MAX_SELF_RECOVERY then
        let (id, st) := freshId st
        let st := (sendViaQueue env st
          { id := id, «from» := config.name, «to» := "bob", type := .error
            content := "Agent " ++ config.name ++ " stuck after " ++ toString MAX_SELF_RECOVERY
              ++ " recovery attempts: "
              ++ jsDisplay (jsCoalesce reflectResult.decision.errorDetails (.str "unknown error"))
            timestamp := 0 } none).1
        ({ st with selfRecoveryAttempts := 0 }, none)
      else
        let (id, st) := freshId st
        ((sendViaQueue env st
          { id := id, «from» := config.name, «to» := config.name, type := .task
            content := "Retry: "
              ++ jsDisplay (jsCoalesce reflectResult.decision.errorDetails
                   (.str "previous attempt failed"))
            timestamp := 0 } none).1, none)

/-- The work done for one received non-cancel message: compaction check,
then path selection, the step calls, the state writes, and the reflect
decision (`iterationSteps`). -/
def iterationBody (config : AgentConfig) (env : LifeEnv) (st : LifeState)
    (message : QueueMessage) : LifeState × Option LifeExit :=
  let compactionNeeded := checkCompactionNeeded st.ctxEstimate (getContextLimit config.model)
  let st := if compactionNeeded = .hard then
      { st with allStates := compactIterations st.allStates (st.iteration : Int) }
    else st
  iterationSteps config env compactionNeeded st message

/-- The tail of an idle pass (no message consumed): idle escalation after
`MAX_IDLE_CYCLES` consecutive empty receives, then `continue` without
advancing the iteration counter. -/
def idleTail (env : LifeEnv) (st : LifeState) (config : AgentConfig) : LifeState :=
  if st.idleCycles ≥ MAX_IDLE_CYCLES then
    let (id, st') := freshId st
    let st' := (sendViaQueue env st'
      { id := id, «from» := config.name, «to» := "bob", type := .status
        content := "Agent " ++ config.name ++ " has been idle for " ++ toString st.idleCycles
          ++ " cycles. Awaiting direction."
        timestamp := 0 } none).1
    { st' with idleCycles := 0 }
  else st

/-- `runLifeLoop`, fuel-indexed: fuel bounds the number of passes through
the `while` loop's top. -/
def runLifeLoop (config : AgentConfig) (env : LifeEnv) :
    Nat → LifeState → LifeState × LifeExit
  | 0, st => (st, .outOfFuel)
  | fuel + 1, st =>
      if st.iteration > config.maxIterations then (st, .maxIterationsReached)
      else if config.tokenBudget ≤ st.totalInput + st.totalOutput then (st, .budgetExhausted)
      else
        let (msg?, redis') := receive st.redis config.name
        let st := { st with redis := redis' }
        match msg? with
        | some m =>
            let st := { st with idleCycles := 0 }
            if m.type = MessageType.cancel then
              (handleCancellation env st config m, .cancelled)
            else
              match iterationBody config env st m with
              | (st, some exit) => (st, exit)
              | (st, none) =>
                  runLifeLoop config env fuel { st with iteration := st.iteration + 1 }
        | none =>
            let st := { st with idleCycles := st.idleCycles + 1 }
            let (cancelCheck, redis'') := receiveNonBlocking st.redis config.name
            let st := { st with redis := redis'' }
            match cancelCheck with
            | some c =>
                if c.type = MessageType.cancel then
                  (handleCancellation env st config c, .cancelled)
                else
                  let (st, ok) := sendViaQueue env st c (some config.workspacePath)
                  if ok then runLifeLoop config env fuel (idleTail env st config)
                  else (st, .sendFailed)
            | none => runLifeLoop config env fuel (idleTail env st config)

/-! ## Helper lemmas -/

/-- The fields of an iteration state other than `input` and `output`. -/
def stateFrame (s : IterationState) : Int × StepType × Int × TokenUsage × Option Complexity :=
  (s.iteration, s.step, s.timestamp, s.tokensUsed, s.complexity)

lemma summarizeState_frame (s : IterationState) : stateFrame (summarizeState s) = stateFrame s := rfl

lemma trimToolResults_frame (s : IterationState) : stateFrame (trimToolResults s) = stateFrame s := rfl

lemma compactIterations_frame (l : List IterationState) (n : Int) :
    (compactIterations l n).map stateFrame = l.map stateFrame := by
  simp only [compactIterations, List.map_map]
  refine List.map_congr_left fun s _ => ?_
  simp only [Function.comp_apply]
  split
  · exact summarizeState_frame s
  · split
    · exact trimToolResults_frame s
    · rfl

lemma compactIterations_iterations (l : List IterationState) (n : Int) :
    (compactIterations l n).map (·.iteration) = l.map (·.iteration) := by
  have h := compactIterations_frame l n
  have h1 : ((compactIterations l n).map stateFrame).map (·.1) = (l.map stateFrame).map (·.1) := by
    rw [h]
  simpa [List.map_map, Function.comp] using h1

/-! ## C9 -/

/-- C9: `compactIterations` returns a list of the same length and order in
which every element keeps its `iteration`, `step`, `timestamp`,
`tokensUsed` and `complexity` fields; only `input`/`output` are rewritten. -/
theorem compactIterations_frame_preserved (l : List IterationState) (n : Int) :
    (compactIterations l n).length = l.length ∧
    (compactIterations l n).map
        (fun s => (s.iteration, s.step, s.timestamp, s.tokensUsed, s.complexity)) =
      l.map (fun s => (s.iteration, s.step, s.timestamp, s.tokensUsed, s.complexity)) := by
  constructor
  · simpa using congrArg List.length (compactIterations_frame l n)
  · exact compactIterations_frame l n

/-! ## Context assembly lemmas (C8) -/

lemma extractSummary_exists (states : List IterationState) (i : Int) :
    ∃ s, extractSummary states i = some s := by
  unfold extractSummary
  dsimp only
  split <;> exact ⟨_, rfl⟩

lemma summaryMessages_eq (states : List IterationState) (i : Int) :
    ∃ s, extractSummary (statesOfIteration states i) i = some s ∧
      summaryMessages states i =
        [⟨Role.user, .str (summaryLine i s)⟩, ⟨Role.assistant, .str (summaryAck i)⟩] := by
  obtain ⟨s, hs⟩ := extractSummary_exists (statesOfIteration states i) i
  exact ⟨s, hs, by simp [summaryMessages, hs]⟩

lemma assembleOldLoop_eq_takeWhile (states : List IterationState) (c : Int) :
    ∀ keys : List Int,
      assembleOldLoop states c keys =
        (keys.takeWhile (fun i => decide (i ≤ c))).flatMap (summaryMessages states) := by
  intro keys
  induction keys with
  | nil => simp [assembleOldLoop]
  | cons i rest ih =>
      by_cases h : i > c
      · have : ¬ (i ≤ c) := by omega
        simp [assembleOldLoop, h, List.takeWhile_cons, this]
      · have h' : i ≤ c := by omega
        simp [assembleOldLoop, h, List.takeWhile_cons, h', ih]

lemma assembleRecentLoop_eq_filter (states : List IterationState) (c t : Int) :
    ∀ keys : List Int,
      assembleRecentLoop states c t keys =
        (keys.filter (fun i => decide (c < i))).flatMap (detailMessages states t) := by
  intro keys
  induction keys with
  | nil => simp [assembleRecentLoop]
  | cons i rest ih =>
      by_cases h : i ≤ c
      · have : ¬ (c < i) := by omega
        simp [assembleRecentLoop, h, this, ih]
      · have h' : c < i := by omega
        simp [assembleRecentLoop, h, h', ih]

lemma takeWhile_eq_filter_of_sorted (c : Int) :
    ∀ {l : List Int}, l.Pairwise (· ≤ ·) →
      l.takeWhile (fun i => decide (i ≤ c)) = l.filter (fun i => decide (i ≤ c)) := by
  intro l hl
  induction l with
  | nil => rfl
  | cons a l ih =>
      rcases List.pairwise_cons.mp hl with ⟨ha, hl'⟩
      by_cases h : a ≤ c
      · simp [List.takeWhile_cons, h, ih hl']
      · have : ∀ b ∈ l, ¬ (b ≤ c) := fun b hb => by have := ha b hb; omega
        simp [List.takeWhile_cons, h, List.filter_eq_nil_iff.mpr ?_]
        intro b hb
        simpa using this b hb

lemma iterationNumbersOf_sorted (states : List IterationState) :
    (iterationNumbersOf states).Pairwise (· ≤ ·) := by
  have h := List.sorted_insertionSort (α := Int) (· ≤ ·) ((states.map (·.iteration)).eraseDups)
  exact h

/-! ## C8 -/

/-- C8: `assembleContext` turns each iteration `i ≤ n - 5` present in the
states into a one-line "[Iteration i summary]" user message plus an
assistant acknowledgement, each iteration `i > n - 5` into a (user,
assistant) pair per recorded step, appends the current queue messages, and
returns the empty list on `([], [], 1)`. -/
theorem assembleContext_spec :
    assembleContext [] [] 1 = [] ∧
    (∀ (states : List IterationState) (msgs : List QueueMessage) (n : Int),
      assembleContext states msgs n =
        ((iterationNumbersOf states).filter (fun i => decide (i ≤ n - 5))).flatMap
            (summaryMessages states)
          ++ ((iterationNumbersOf states).filter (fun i => decide (n - 5 < i))).flatMap
            (detailMessages states (n - 3))
          ++ (if 0 < msgs.length then [⟨Role.user, .str (currentMessagesText msgs)⟩] else [])) ∧
    (∀ (states : List IterationState) (i : Int),
      ∃ s, extractSummary (statesOfIteration states i) i = some s ∧
        summaryMessages states i =
          [⟨Role.user, .str (summaryLine i s)⟩, ⟨Role.assistant, .str (summaryAck i)⟩]) ∧
    (∀ (states : List IterationState) (t i : Int),
      detailMessages states t i =
        (statesOfIteration states i).flatMap fun st =>
          [⟨Role.user, .str (formatStateInput st (decide (i ≤ t)))⟩,
           ⟨Role.assistant, .str (formatStateOutput st (decide (i ≤ t)))⟩]) := by
  refine ⟨rfl, fun states msgs n => ?_, summaryMessages_eq, fun states t i => rfl⟩
  have hsorted := iterationNumbersOf_sorted states
  show assembleOldLoop states (n - FULL_DETAIL_WINDOW) (iterationNumbersOf states)
      ++ assembleRecentLoop states (n - FULL_DETAIL_WINDOW) (n - TRIM_TOOL_RESULTS_AFTER)
            (iterationNumbersOf states)
      ++ _ = _
  rw [assembleOldLoop_eq_takeWhile, assembleRecentLoop_eq_filter,
    takeWhile_eq_filter_of_sorted _ hsorted]
  rfl

/-! ## Message-bus lemmas (C4, C10) -/

lemma queueKey_inj {a b : String} (h : queueKey a = queueKey b) : a = b := by
  have hd := congrArg String.data h
  rw [queueKey, queueKey, String.data_append, String.data_append] at hd
  exact String.ext (List.append_cancel_left hd)

lemma rpopAll_eq_reverse : ∀ l : List QueueMessage, rpopAll l = l.reverse := by
  intro l
  induction l with
  | nil => rfl
  | cons x xs ih => simp [rpopAll, ih]

/-! ## C4 -/

/-- C4: `send` to `shared` without a workspace fails with the
configuration error; with a workspace it reads the session and pushes one
copy to `queue:<name>` for exactly the running agents other than the
sender (counted per queue name), and nothing else; any other destination
gets a single push to `queue:<to>`. -/
theorem sendPushes_spec (msg : QueueMessage) (readSession : String → Option SessionState) :
    (msg.to = "shared" →
      sendPushes msg none readSession =
        .error "workspacePath is required for shared messages (needed to read session.json)") ∧
    (∀ (w : String) (session : SessionState), msg.to = "shared" → readSession w = some session →
      sendPushes msg (some w) readSession =
        .ok ((session.agents.filter fun a =>
                a.status == AgentStatus.running && a.config.name != msg.from).map
              fun agent => (queueKey agent.config.name, { msg with «to» := agent.config.name })) ∧
      ∀ name : String,
        ((session.agents.filter fun a =>
            a.status == AgentStatus.running && a.config.name != msg.from).map
          fun agent =>
            (queueKey agent.config.name, { msg with «to» := agent.config.name })).countP
            (fun p => p.1 == queueKey name) =
          session.agents.countP fun a =>
            (a.config.name == name) && (a.status == AgentStatus.running && a.config.name != msg.from)) ∧
    (msg.to ≠ "shared" → ∀ w : Option String,
      sendPushes msg w readSession = .ok [(queueKey msg.to, msg)]) := by
  refine ⟨fun h => by simp [sendPushes, h], fun w session h hw => ⟨by simp [sendPushes, h, hw], ?_⟩,
    fun h w => by simp [sendPushes, h]⟩
  intro name
  rw [List.countP_map, List.countP_filter]
  refine List.countP_congr fun a _ => ?_
  simp only [Function.comp_apply]
  by_cases hn : a.config.name = name
  · simp [hn]
  · have hq : ¬ queueKey a.config.name = queueKey name := fun hq => hn (queueKey_inj hq)
    simp [hn, hq]

def emptyCfg (name : String) : AgentConfig :=
  { name := name, role := "", purpose := "", tools := [], model := "", tokenBudget := 0
    maxIterations := 0, maxToolTurns := 0, workspacePath := "", valkeyUrl := "" }

def entryW (name : String) (status : AgentStatus) : AgentSessionEntry :=
  { config := emptyCfg name, pid := 1, status := status, startTime := 0, endTime := none }

def sessionW : SessionState :=
  { goal := "", startTime := 0, workspace := "/ws", valkeyUrl := ""
    agents := [entryW "bob" .running, entryW "alice" .running, entryW "carol" .completed]
    status := .running }

def readSessionW : String → Option SessionState :=
  fun w => if w = "/ws" then some sessionW else none

def msgSharedW : QueueMessage :=
  { id := "m1", «from» := "alice", «to» := "shared", type := .status, content := "hi", timestamp := 0 }

def msgDirectW : QueueMessage :=
  { id := "m2", «from» := "alice", «to» := "bob", type := .task, content := "do", timestamp := 0 }

theorem sendPushes_spec_witness :
    msgSharedW.to = "shared" ∧ readSessionW "/ws" = some sessionW ∧ msgDirectW.to ≠ "shared" ∧
    sendPushes msgSharedW none readSessionW =
      .error "workspacePath is required for shared messages (needed to read session.json)" ∧
    sendPushes msgSharedW (some "/ws") readSessionW =
      .ok [(queueKey "bob", { msgSharedW with «to» := "bob" })] ∧
    sendPushes msgDirectW (some "/ws") readSessionW = .ok [(queueKey "bob", msgDirectW)] := by
  refine ⟨rfl, rfl, by decide, (sendPushes_spec msgSharedW readSessionW).1 rfl, ?_, ?_⟩
  · have h := ((sendPushes_spec msgSharedW readSessionW).2.1 "/ws" sessionW rfl rfl).1
    rw [h]
    rfl
  · exact (sendPushes_spec msgDirectW readSessionW).2.2 (by decide) (some "/ws")

/-! ## C10 -/

/-- C10: a message observed by the non-blocking pop and re-sent through
the normal send path is lpushed to the back of its FIFO queue: the drain
order afterwards delivers it only after every message that was already
waiting, whereas originally it would have been delivered first. -/
theorem reenqueue_goes_to_back (s : RedisState) (name : String) (m : QueueMessage)
    (ws : String) (readSession : String → Option SessionState)
    (hpop : (receiveNonBlocking s name).1 = some m)
    (hto : m.to = name) (hns : name ≠ "shared") :
    ∃ s' : RedisState,
      send m (some ws) readSession (receiveNonBlocking s name).2 = .ok s' ∧
      s' (queueKey name) = m :: (s (queueKey name)).dropLast ∧
      rpopAll (s' (queueKey name)) = rpopAll ((s (queueKey name)).dropLast) ++ [m] ∧
      rpopAll (s (queueKey name)) = m :: rpopAll ((s (queueKey name)).dropLast) := by
  rcases hlast : (s (queueKey name)).getLast? with _ | v
  · exfalso
    simp [receiveNonBlocking, rpop, hlast] at hpop
  · have hvm : v = m := by
      simpa [receiveNonBlocking, rpop, hlast] using hpop
    subst hvm
    have hq : (s (queueKey name)).dropLast ++ [v] = s (queueKey name) := by
      rcases List.eq_nil_or_concat (s (queueKey name)) with h | ⟨l', a, h⟩
      · rw [h] at hlast; simp at hlast
      · rw [h] at hlast ⊢
        simp at hlast
        simp [hlast]
    have hs2 : (receiveNonBlocking s name).2 (queueKey name) = (s (queueKey name)).dropLast := by
      simp [receiveNonBlocking, rpop, hlast]
    have hsend : sendPushes v (some ws) readSession = .ok [(queueKey v.to, v)] := by
      simp [sendPushes, hto, hns]
    refine ⟨applyPushes (receiveNonBlocking s name).2 [(queueKey v.to, v)], ?_, ?_, ?_, ?_⟩
    · simp [send, hsend, Except.map]
    · simp [applyPushes, lpush, hto, hs2]
    · simp [applyPushes, lpush, hto, hs2, rpopAll_eq_reverse]
    · conv_lhs => rw [← hq]
      simp [rpopAll_eq_reverse]

def qMsg (n : Nat) : QueueMessage :=
  { id := "q" ++ toString n, «from» := "bob", «to» := "alice", type := .task
    content := "t" ++ toString n, timestamp := 0 }

/-- A queue holding three waiting messages; the head is the newest, so
`qMsg 1` is the oldest and is delivered first. -/
def redisW : RedisState :=
  fun k => if k = queueKey "alice" then [qMsg 3, qMsg 2, qMsg 1] else []

theorem reenqueue_goes_to_back_witness :
    (receiveNonBlocking redisW "alice").1 = some (qMsg 1) ∧ (qMsg 1).to = "alice" ∧
    ∃ s' : RedisState,
      send (qMsg 1) (some "/ws") readSessionW (receiveNonBlocking redisW "alice").2 = .ok s' ∧
      s' (queueKey "alice") = qMsg 1 :: (redisW (queueKey "alice")).dropLast ∧
      rpopAll (s' (queueKey "alice")) =
        rpopAll ((redisW (queueKey "alice")).dropLast) ++ [qMsg 1] ∧
      rpopAll (redisW (queueKey "alice")) =
        qMsg 1 :: rpopAll ((redisW (queueKey "alice")).dropLast) := by
  refine ⟨?_, rfl, ?_⟩
  · show (rpop redisW (queueKey "alice")).1 = some (qMsg 1)
    rfl
  · exact reenqueue_goes_to_back redisW "alice" (qMsg 1) "/ws" readSessionW rfl rfl (by decide)

/-! ## C7 -/

/-- C7: when the reflect response does not parse as JSON, the decision is
`continue` with nextMessage exactly "Retry — reflection output was not
valid JSON.". -/
theorem doReflect_unparsable (config : AgentConfig) (env : LifeEnv) (st : LifeState)
    (allStates : List IterationState) (iteration : Nat)
    (h : env.jsonParse (getTextContent (env.oracle st.callIdx).content) = none) :
    (doReflect config env st allStates iteration).1.decision.decision = .continue' ∧
    (doReflect config env st allStates iteration).1.decision.nextMessage =
      some (.str "Retry — reflection output was not valid JSON.") := by
  constructor <;> simp [doReflect, callClaude, h]

def cfgW : AgentConfig := emptyCfg "w"

def stW : LifeState :=
  { iteration := 1, idleCycles := 0, selfRecoveryAttempts := 0, lastComplexity := .complex
    allStates := [], redis := fun _ => [], callIdx := 0, totalInput := 0, totalOutput := 0
    ctxEstimate := 0, uuidCtr := 0, files := [], sent := [], callLog := [] }

def envC7 : LifeEnv :=
  { oracle := fun _ => { content := [.text "not json"], stopReason := some "end_turn", usage := ⟨1, 1⟩ }
    jsonParse := fun _ => none
    execTool := fun _ _ => ""
    readSession := fun _ => none }

theorem doReflect_unparsable_witness :
    envC7.jsonParse (getTextContent (envC7.oracle stW.callIdx).content) = none ∧
    (doReflect cfgW envC7 stW [] 1).1.decision.decision = .continue' ∧
    (doReflect cfgW envC7 stW [] 1).1.decision.nextMessage =
      some (.str "Retry — reflection output was not valid JSON.") :=
  ⟨rfl, (doReflect_unparsable cfgW envC7 stW [] 1 rfl).1,
    (doReflect_unparsable cfgW envC7 stW [] 1 rfl).2⟩

/-! ## C6 -/

/-- C6: the system prompt of the reflect call recorded in the call log is
always the plain `reflectPrompt` (plus the leader context for "bob") — the
construction never consults the token budget or the accumulated usage, so
no budget-warning block is ever added, whatever the remaining budget. -/
theorem doReflect_prompt_never_augmented (config : AgentConfig) (env : LifeEnv)
    (st : LifeState) (allStates : List IterationState) (iteration : Nat) :
    (doReflect config env st allStates iteration).2.callLog =
      st.callLog ++ [("reflect", buildSystemPrompt config (reflectPrompt config))] := rfl

/-! ## C2 -/

/-- An LLM script that requests a tool call on every turn. -/
def envTool : LifeEnv :=
  { oracle := fun _ =>
      { content := [.toolUse "tu" "bash" (.obj [("command", .str "echo hi")])]
        stopReason := some "tool_use", usage := ⟨1, 1⟩ }
    jsonParse := fun _ => none
    execTool := fun _ _ => "ok"
    readSession := fun _ => none }

def cfgTurns : AgentConfig := { emptyCfg "w" with maxToolTurns := 2 }

/-- C2 (counter-evidence): the tool sub-loop caps at the module constant
`MAX_TOOL_TURNS = 25` and reports that constant, regardless of the
configured `maxToolTurns` — here 2, as in the repository's own test
"respects maxToolTurns from config": with a model that keeps requesting
tools, 25 LLM turns are made, exceeding the configured cap of 2. -/
theorem executeWithToolLoop_ignores_configured_cap :
    cfgTurns.maxToolTurns = 2 ∧
    (executeWithToolLoop envTool "sys" [⟨.user, .str "go"⟩] stW).2.callIdx = MAX_TOOL_TURNS ∧
    (executeWithToolLoop envTool "sys" [⟨.user, .str "go"⟩] stW).1.output =
      .str "Tool loop terminated after 25 turns" ∧
    ¬ MAX_TOOL_TURNS ≤ cfgTurns.maxToolTurns := by
  refine ⟨rfl, by decide, rfl, by decide⟩

/-! ## C5 -/

def planStC5 : IterationState :=
  { iteration := 1, step := .plan, timestamp := 0, input := .null, output := .null
    tokensUsed := ⟨0, 0⟩, complexity := some .simple }

def reflStC5 : IterationState :=
  { iteration := 1, step := .reflect, timestamp := 0, input := .null, output := .null
    tokensUsed := ⟨0, 0⟩, complexity := none }

/-- A state directory where iteration 1 has a plan state recording
complexity `simple` and a reflect state (written, as always, without a
complexity field). -/
def dirC5 : StateDir := fun i step =>
  if i = 1 then
    match step with
    | .plan => some planStC5
    | .reflect => some reflStC5
    | _ => none
  else none

/-- C5 (counterexample): resuming from "1-reflect" where iteration 1's
plan state records complexity `simple`, the code resumes with
lastComplexity `complex` — it reads the complexity of the *last loaded*
state (the reflect state, which has none), not the plan state's. -/
theorem recoverState_counterexample :
    (readIterationState dirC5 1 StepType.plan).bind (·.complexity) = some Complexity.simple ∧
    (recoverState dirC5 "1-reflect").iteration = 2 ∧
    (recoverState dirC5 "1-reflect").lastComplexity = Complexity.complex ∧
    Complexity.complex ≠ Complexity.simple := by
  refine ⟨rfl, by decide, by decide, by decide⟩

/-- C5 (amended): with RESUME_FROM parsing as (i, "reflect") the agent
resumes at iteration i+1 with lastComplexity taken from the complexity
field of the *last* loaded state — the iteration-i reflect state when
present, which is written without that field — defaulting to `complex`;
for any other parsed step it resumes at iteration i with `complex`. -/
theorem recoverState_spec (dir : StateDir) (resumeFrom : String) (i : Nat) (step : String)
    (hp : parseResumeToken resumeFrom = some (i, step)) :
    (step = "reflect" →
      recoverState dir resumeFrom =
        ⟨loadedStates dir i, i + 1,
          ((loadedStates dir i).getLast?.bind (·.complexity)).getD .complex⟩) ∧
    (step ≠ "reflect" →
      recoverState dir resumeFrom = ⟨loadedStates dir i, i, .complex⟩) := by
  constructor <;> intro hstep <;> simp [recoverState, hp, hstep]

theorem recoverState_spec_witness :
    parseResumeToken "1-reflect" = some (1, "reflect") ∧
    recoverState dirC5 "1-reflect" =
      ⟨loadedStates dirC5 1, 2,
        ((loadedStates dirC5 1).getLast?.bind (·.complexity)).getD .complex⟩ :=
  ⟨by decide, (recoverState_spec dirC5 "1-reflect" 1 "reflect" (by decide)).1 rfl⟩

/-! ## C1 -/

def taskMsgTo (name : String) : QueueMessage :=
  { id := "msg-1", «from» := "main", «to» := name, type := .task, content := "Work", timestamp := 0 }

/-- An LLM script for one standard-path iteration spending 450 tokens:
plan (complex), plain execute, reflect `continue` with a next message. -/
def envC1 : LifeEnv :=
  { oracle := fun k =>
      if k = 0 then { content := [.text "PLANJSON"], stopReason := some "end_turn", usage := ⟨100, 50⟩ }
      else if k = 1 then { content := [.text "done"], stopReason := some "end_turn", usage := ⟨100, 50⟩ }
      else { content := [.text "REFLECTJSON"], stopReason := some "end_turn", usage := ⟨100, 50⟩ }
    jsonParse := fun s =>
      if s = "PLANJSON" then some (.obj [("plan", .str "p"), ("complexity", .str "complex")])
      else if s = "REFLECTJSON" then
        some (.obj [("decision", .str "continue"), ("nextMessage", .str "more"),
          ("summary", .obj [("iteration", .num 1), ("plan", .str "p"), ("outcome", .str "ok"),
            ("filesChanged", .arr []), ("decisions", .arr [])])])
      else none
    execTool := fun _ _ => ""
    readSession := fun _ => none }

def cfgC1 (name : String) : AgentConfig :=
  { emptyCfg name with tokenBudget := 200, maxIterations := 10 }

def stC1 (name : String) : LifeState :=
  { stW with redis := fun k => if k = queueKey name then [taskMsgTo name] else [] }

/-- C1 (counter-evidence): with a 200-token budget exhausted by the first
iteration, both a worker ("alice") and the leader ("bob") exit the life
loop at the budget check having sent only the self-addressed `task`
message from the reflect decision — no terminal `status` and no
`all-complete` message is emitted, although the repository's own tests
expect one. -/
theorem budget_exhaustion_sends_no_terminal_message :
    (runLifeLoop (cfgC1 "alice") envC1 3 (stC1 "alice")).2 = .budgetExhausted ∧
    (runLifeLoop (cfgC1 "alice") envC1 3 (stC1 "alice")).1.sent.map (·.type) = [.task] ∧
    (runLifeLoop (cfgC1 "bob") envC1 3 (stC1 "bob")).2 = .budgetExhausted ∧
    (runLifeLoop (cfgC1 "bob") envC1 3 (stC1 "bob")).1.sent.map (·.type) = [.task] ∧
    MessageType.task ≠ .status ∧ MessageType.task ≠ .allComplete := by
  refine ⟨by decide, by decide, by decide, by decide, by decide, by decide⟩

/-! ## Life-loop lemmas (C3) -/

/-- The tool loop never touches the file trace, the in-memory state list,
the send trace, or the path-selection state. -/
lemma toolLoopAux_frame (env : LifeEnv) (sys : String) :
    ∀ (remaining turns : Nat) (msgs : List MessageParam) (tot : TokenUsage) (st : LifeState),
      (toolLoopAux env sys remaining turns msgs tot st).2.files = st.files ∧
      (toolLoopAux env sys remaining turns msgs tot st).2.allStates = st.allStates ∧
      (toolLoopAux env sys remaining turns msgs tot st).2.lastComplexity = st.lastComplexity ∧
      (toolLoopAux env sys remaining turns msgs tot st).2.sent = st.sent ∧
      (toolLoopAux env sys remaining turns msgs tot st).2.selfRecoveryAttempts
        = st.selfRecoveryAttempts := by
  intro remaining
  induction remaining with
  | zero => exact fun _ _ _ _ => ⟨rfl, rfl, rfl, rfl, rfl⟩
  | succ n ih =>
      intro turns msgs tot st
      simp only [toolLoopAux]
      split
      · exact ⟨rfl, rfl, rfl, rfl, rfl⟩
      · exact ih _ _ _ _

/-- With a response carrying no tool_use blocks, the tool loop makes
exactly one call and returns its text. -/
lemma toolLoopAux_noTools (env : LifeEnv) (sys : String) (n turns : Nat)
    (msgs : List MessageParam) (tot : TokenUsage) (st : LifeState)
    (h : getToolUseBlocks (env.oracle st.callIdx).content = []) :
    toolLoopAux env sys (n + 1) turns msgs tot st =
      ({ output := if getTextContent (env.oracle st.callIdx).content = ""
            then .arr ((env.oracle st.callIdx).content.map contentBlockToJson)
            else .str (getTextContent (env.oracle st.callIdx).content)
         tokensUsed := addTokens tot (env.oracle st.callIdx).usage },
       { st with
          callIdx := st.callIdx + 1
          totalInput := st.totalInput + (env.oracle st.callIdx).usage.input
          totalOutput := st.totalOutput + (env.oracle st.callIdx).usage.output
          callLog := st.callLog ++ [("execute/turn-" ++ toString turns, sys)] }) := by
  simp [toolLoopAux, callClaude, h]

lemma executeWithToolLoop_noTools (env : LifeEnv) (sys : String)
    (msgs : List MessageParam) (st : LifeState)
    (h : getToolUseBlocks (env.oracle st.callIdx).content = []) :
    executeWithToolLoop env sys msgs st =
      ({ output := if getTextContent (env.oracle st.callIdx).content = ""
            then .arr ((env.oracle st.callIdx).content.map contentBlockToJson)
            else .str (getTextContent (env.oracle st.callIdx).content)
         tokensUsed := addTokens ⟨0, 0⟩ (env.oracle st.callIdx).usage },
       { st with
          callIdx := st.callIdx + 1
          totalInput := st.totalInput + (env.oracle st.callIdx).usage.input
          totalOutput := st.totalOutput + (env.oracle st.callIdx).usage.output
          callLog := st.callLog ++ [("execute/turn-" ++ toString 0, sys)] }) := by
  rw [executeWithToolLoop, show MAX_TOOL_TURNS = 24 + 1 from rfl,
    toolLoopAux_noTools env sys 24 0 msgs ⟨0, 0⟩ st h]

lemma doPlan_state (config : AgentConfig) (env : LifeEnv) (st : LifeState)
    (allStates : List IterationState) (msgs : List QueueMessage) (it : Nat) :
    (doPlan config env st allStates msgs it).2 =
      { st with
        ctxEstimate := estimateMessagesTokens (assembleContext allStates msgs (it : Int))
        callIdx := st.callIdx + 1
        totalInput := st.totalInput + (env.oracle st.callIdx).usage.input
        totalOutput := st.totalOutput + (env.oracle st.callIdx).usage.output
        callLog := st.callLog ++ [("plan", buildSystemPrompt config (planPrompt config))] } := rfl

lemma doPlan_tokensUsed (config : AgentConfig) (env : LifeEnv) (st : LifeState)
    (allStates : List IterationState) (msgs : List QueueMessage) (it : Nat) :
    (doPlan config env st allStates msgs it).1.tokensUsed = (env.oracle st.callIdx).usage := rfl

lemma doReflect_state (config : AgentConfig) (env : LifeEnv) (st : LifeState)
    (allStates : List IterationState) (it : Nat) :
    (doReflect config env st allStates it).2 =
      { st with
        ctxEstimate := estimateMessagesTokens (assembleContext allStates [] (it : Int))
        callIdx := st.callIdx + 1
        totalInput := st.totalInput + (env.oracle st.callIdx).usage.input
        totalOutput := st.totalOutput + (env.oracle st.callIdx).usage.output
        callLog := st.callLog ++ [("reflect", buildSystemPrompt config (reflectPrompt config))] } := rfl

lemma doReflect_complexity (config : AgentConfig) (env : LifeEnv) (st : LifeState)
    (allStates : List IterationState) (it : Nat) :
    (doReflect config env st allStates it).1.complexity =
      match (allStates.find? fun s =>
          s.iteration == (it : Int) &&
            (s.step == StepType.plan || s.step == StepType.planExecute)).bind (·.complexity) with
      | some .simple => Complexity.simple
      | _ => Complexity.complex := rfl

lemma doExecute_state_noTools (config : AgentConfig) (env : LifeEnv) (st : LifeState)
    (allStates : List IterationState) (plan : String) (it : Nat)
    (h : getToolUseBlocks (env.oracle st.callIdx).content = []) :
    (doExecute config env st allStates plan it).2 =
      { st with
        ctxEstimate := estimateMessagesTokens (assembleContext allStates [] (it : Int))
        callIdx := st.callIdx + 1
        totalInput := st.totalInput + (env.oracle st.callIdx).usage.input
        totalOutput := st.totalOutput + (env.oracle st.callIdx).usage.output
        callLog := st.callLog ++
          [("execute/turn-0", buildSystemPrompt config (executePrompt config plan))] } := by
  simp only [doExecute]
  rw [executeWithToolLoop_noTools env _ _
    { st with ctxEstimate := estimateMessagesTokens (assembleContext allStates [] (it : Int)) } h]
  rfl

lemma doPlanExecute_state_noTools (config : AgentConfig) (env : LifeEnv) (st : LifeState)
    (allStates : List IterationState) (msgs : List QueueMessage) (it : Nat)
    (h : getToolUseBlocks (env.oracle st.callIdx).content = []) :
    (doPlanExecute config env st allStates msgs it).2 =
      { st with
        ctxEstimate := estimateMessagesTokens (assembleContext allStates msgs (it : Int))
        callIdx := st.callIdx + 1
        totalInput := st.totalInput + (env.oracle st.callIdx).usage.input
        totalOutput := st.totalOutput + (env.oracle st.callIdx).usage.output
        callLog := st.callLog ++
          [("execute/turn-0", buildSystemPrompt config (planExecutePrompt config))] } := by
  simp only [doPlanExecute]
  rw [executeWithToolLoop_noTools env _ _
    { st with ctxEstimate := estimateMessagesTokens (assembleContext allStates msgs (it : Int)) } h]
  rfl

lemma sendViaQueue_files (env : LifeEnv) (st : LifeState) (msg : QueueMessage)
    (ws : Option String) : (sendViaQueue env st msg ws).1.files = st.files := by
  cases h : sendPushes msg ws env.readSession <;> simp [sendViaQueue, h]

lemma sendViaQueue_callIdx (env : LifeEnv) (st : LifeState) (msg : QueueMessage)
    (ws : Option String) : (sendViaQueue env st msg ws).1.callIdx = st.callIdx := by
  cases h : sendPushes msg ws env.readSession <;> simp [sendViaQueue, h]

lemma sendViaQueue_lastComplexity (env : LifeEnv) (st : LifeState) (msg : QueueMessage)
    (ws : Option String) :
    (sendViaQueue env st msg ws).1.lastComplexity = st.lastComplexity := by
  cases h : sendPushes msg ws env.readSession <;> simp [sendViaQueue, h]

/-- The tool-loop output of a single no-tool-use turn at call index `k`. -/
def noToolsOutput (env : LifeEnv) (k : Nat) : JsonValue :=
  if getTextContent (env.oracle k).content = ""
  then .arr ((env.oracle k).content.map contentBlockToJson)
  else .str (getTextContent (env.oracle k).content)

def peText (env : LifeEnv) (k : Nat) : String :=
  match noToolsOutput env k with
  | .str s => s
  | v => jsonStringify v

def peComplexity (env : LifeEnv) (k : Nat) : Complexity :=
  match (env.jsonParse (peText env k)).bind (fun p => jsGet p "complexity") with
  | some (.str "complex") => .complex
  | _ => .simple

def planText (env : LifeEnv) (k : Nat) : String :=
  getTextContent (env.oracle k).content

def planComplexity (env : LifeEnv) (k : Nat) : Complexity :=
  match (env.jsonParse (planText env k)).bind (fun p => jsGet p "complexity") with
  | some (.str "simple") => .simple
  | _ => .complex

/-- The `ReflectDecision` produced from the response at call index `k`. -/
def reflectDecisionOf (env : LifeEnv) (k : Nat) (iteration : Nat) : ReflectDecision :=
  let text := getTextContent (env.oracle k).content
  let parsed := env.jsonParse text
  let parsedDecision : DecisionType :=
    match parsed.bind (fun p => jsGet p "decision") with
    | some (.str "continue") => .continue'
    | some (.str "complete") => .complete
    | some (.str "error") => .error
    | _ => .continue'
  match parsed with
  | some p =>
      { decision := parsedDecision
        summary := jsCoalesce (jsGet p "summary")
          (.obj [("iteration", .num (iteration : Int)), ("plan", .str "Unknown"),
                 ("outcome", .str "Unknown"), ("filesChanged", .arr []),
                 ("decisions", .arr [])])
        nextMessage := jsGet p "nextMessage"
        errorDetails := jsGet p "errorDetails"
        selfRecoveryAttempt := jsGet p "selfRecoveryAttempt" }
  | none =>
      { decision := .continue'
        summary := .obj [("iteration", .num (iteration : Int)),
                         ("plan", .str "Could not parse reflection"),
                         ("outcome", .str (text.take 200)),
                         ("filesChanged", .arr []), ("decisions", .arr [])]
        nextMessage := some (.str "Retry — reflection output was not valid JSON.")
        errorDetails := none
        selfRecoveryAttempt := none }

def reflectComplexityOf (allStates : List IterationState) (it : Nat) : Complexity :=
  match (allStates.find? fun s =>
      s.iteration == (it : Int) &&
        (s.step == StepType.plan || s.step == StepType.planExecute)).bind (·.complexity) with
  | some .simple => Complexity.simple
  | _ => Complexity.complex

lemma doPlan_full (config : AgentConfig) (env : LifeEnv) (st : LifeState)
    (allStates : List IterationState) (msgs : List QueueMessage) (it : Nat) :
    doPlan config env st allStates msgs it =
      ({ output := match env.jsonParse (planText env st.callIdx) with
           | some p => p
           | none => .str (planText env st.callIdx)
         tokensUsed := (env.oracle st.callIdx).usage
         plan := ((env.jsonParse (planText env st.callIdx)).bind
             (fun p => jsGetStr p "plan")).getD (planText env st.callIdx)
         complexity := planComplexity env st.callIdx },
       { st with
          ctxEstimate := estimateMessagesTokens (assembleContext allStates msgs (it : Int))
          callIdx := st.callIdx + 1
          totalInput := st.totalInput + (env.oracle st.callIdx).usage.input
          totalOutput := st.totalOutput + (env.oracle st.callIdx).usage.output
          callLog := st.callLog ++ [("plan", buildSystemPrompt config (planPrompt config))] }) := rfl

lemma doReflect_full (config : AgentConfig) (env : LifeEnv) (st : LifeState)
    (allStates : List IterationState) (it : Nat) :
    doReflect config env st allStates it =
      ({ decision := reflectDecisionOf env st.callIdx it
         tokensUsed := (env.oracle st.callIdx).usage
         complexity := reflectComplexityOf allStates it },
       { st with
          ctxEstimate := estimateMessagesTokens (assembleContext allStates [] (it : Int))
          callIdx := st.callIdx + 1
          totalInput := st.totalInput + (env.oracle st.callIdx).usage.input
          totalOutput := st.totalOutput + (env.oracle st.callIdx).usage.output
          callLog := st.callLog ++ [("reflect", buildSystemPrompt config (reflectPrompt config))] }) := rfl

lemma doExecute_full_noTools (config : AgentConfig) (env : LifeEnv) (st : LifeState)
    (allStates : List IterationState) (plan : String) (it : Nat)
    (h : getToolUseBlocks (env.oracle st.callIdx).content = []) :
    doExecute config env st allStates plan it =
      ({ output := noToolsOutput env st.callIdx
         tokensUsed := addTokens ⟨0, 0⟩ (env.oracle st.callIdx).usage
         plan := plan
         complexity := .complex },
       { st with
          ctxEstimate := estimateMessagesTokens (assembleContext allStates [] (it : Int))
          callIdx := st.callIdx + 1
          totalInput := st.totalInput + (env.oracle st.callIdx).usage.input
          totalOutput := st.totalOutput + (env.oracle st.callIdx).usage.output
          callLog := st.callLog ++
            [("execute/turn-0", buildSystemPrompt config (executePrompt config plan))] }) := by
  simp only [doExecute]
  rw [executeWithToolLoop_noTools env _ _
    { st with ctxEstimate := estimateMessagesTokens (assembleContext allStates [] (it : Int)) } h]
  rfl

lemma doPlanExecute_full_noTools (config : AgentConfig) (env : LifeEnv) (st : LifeState)
    (allStates : List IterationState) (msgs : List QueueMessage) (it : Nat)
    (h : getToolUseBlocks (env.oracle st.callIdx).content = []) :
    doPlanExecute config env st allStates msgs it =
      ({ output := noToolsOutput env st.callIdx
         tokensUsed := addTokens ⟨0, 0⟩ (env.oracle st.callIdx).usage
         plan := peText env st.callIdx
         complexity := peComplexity env st.callIdx },
       { st with
          ctxEstimate := estimateMessagesTokens (assembleContext allStates msgs (it : Int))
          callIdx := st.callIdx + 1
          totalInput := st.totalInput + (env.oracle st.callIdx).usage.input
          totalOutput := st.totalOutput + (env.oracle st.callIdx).usage.output
          callLog := st.callLog ++
            [("execute/turn-0", buildSystemPrompt config (planExecutePrompt config))] }) := by
  simp only [doPlanExecute]
  rw [executeWithToolLoop_noTools env _ _
    { st with ctxEstimate := estimateMessagesTokens (assembleContext allStates msgs (it : Int)) } h]
  rfl

lemma find?_skip_fresh (st : LifeState)
    (hFresh : ∀ s ∈ st.allStates, s.iteration ≠ (st.iteration : Int))
    (tail : List IterationState) :
    ((st.allStates ++ tail).find? fun s =>
        s.iteration == (st.iteration : Int) &&
          (s.step == StepType.plan || s.step == StepType.planExecute)) =
      (tail.find? fun s =>
        s.iteration == (st.iteration : Int) &&
          (s.step == StepType.plan || s.step == StepType.planExecute)) := by
  rw [List.find?_append]
  have hnone : (st.allStates.find? fun s =>
      s.iteration == (st.iteration : Int) &&
        (s.step == StepType.plan || s.step == StepType.planExecute)) = none := by
    refine List.find?_eq_none.mpr fun s hs => ?_
    simp only [Bool.and_eq_true, beq_iff_eq, not_and]
    intro hiter
    exact absurd hiter (hFresh s hs)
  rw [hnone, Option.none_or]

lemma reflectComplexityOf_append (st : LifeState)
    (hFresh : ∀ s ∈ st.allStates, s.iteration ≠ (st.iteration : Int))
    (s : IterationState) (tail : List IterationState)
    (hs : s.iteration = (st.iteration : Int))
    (hstep : s.step = StepType.plan ∨ s.step = StepType.planExecute)
    (c : Complexity) (hc : s.complexity = some c) :
    reflectComplexityOf (st.allStates ++ (s :: tail)) st.iteration = c := by
  unfold reflectComplexityOf
  rw [find?_skip_fresh st hFresh]
  have hpred : (s.iteration == (st.iteration : Int) &&
      (s.step == StepType.plan || s.step == StepType.planExecute)) = true := by
    rcases hstep with h | h <;> simp [hs, h]
  simp only [List.find?_cons, hpred, hc]
  cases c <;> simp [hc]

/-- The plan-execute state file written on a fast-path iteration whose
tool loop resolves in one turn. -/
def peWritten (env : LifeEnv) (k : Nat) (it : Nat) (msgs : List QueueMessage) : IterationState :=
  { iteration := (it : Int), step := .planExecute, timestamp := 0
    input := .arr (msgs.map queueMessageToJson), output := noToolsOutput env k
    tokensUsed := addTokens ⟨0, 0⟩ (env.oracle k).usage
    complexity := some (peComplexity env k) }

/-- The reflect state file written from the response at call index `k`. -/
def reflectWritten (env : LifeEnv) (k : Nat) (it : Nat) : IterationState :=
  { iteration := (it : Int), step := .reflect, timestamp := 0, input := .null
    output := reflectDecisionToJson (reflectDecisionOf env k it)
    tokensUsed := (env.oracle k).usage, complexity := none }

lemma iterationSteps_fast (config : AgentConfig) (env : LifeEnv)
    (cn : CompactionLevel) (st : LifeState) (m : QueueMessage)
    (hOracle : ∀ k, getToolUseBlocks (env.oracle k).content = [])
    (hFresh : ∀ s ∈ st.allStates, s.iteration ≠ (st.iteration : Int))
    (h1 : st.lastComplexity = .simple) (h2 : st.iteration > 1) :
    ∃ pe re c,
      (iterationSteps config env cn st m).1.files =
        st.files ++ [(st.iteration, .planExecute, pe), (st.iteration, .reflect, re)] ∧
      pe.complexity = some c ∧
      (iterationSteps config env cn st m).1.lastComplexity = c ∧
      (iterationSteps config env cn st m).1.callIdx = st.callIdx + 2 := by
  have hufp : (st.lastComplexity == Complexity.simple && decide (st.iteration > 1)) = true := by
    simp [h1, h2]
  have hrc := reflectComplexityOf_append st hFresh
  simp only [iterationSteps, hufp, if_true, writeStateFile]
  rw [doPlanExecute_full_noTools config env st st.allStates [m] st.iteration (hOracle _)]
  dsimp only
  rw [doReflect_full]
  dsimp only
  cases hdec : (reflectDecisionOf env (st.callIdx + 1) st.iteration).decision <;>
    simp only [hdec] <;>
    split <;>
    refine ⟨peWritten env st.callIdx st.iteration [m],
      reflectWritten env (st.callIdx + 1) st.iteration, peComplexity env st.callIdx,
      ?_, rfl, ?_, ?_⟩ <;>
    simp [sendViaQueue_files, sendViaQueue_callIdx, sendViaQueue_lastComplexity, freshId,
      peWritten, reflectWritten, List.append_assoc] <;>
    exact hrc _ [] rfl (Or.inr rfl) _ rfl

/-- The output value recorded by the plan step. -/
def planOutput (env : LifeEnv) (k : Nat) : JsonValue :=
  match env.jsonParse (planText env k) with
  | some p => p
  | none => .str (planText env k)

/-- The plan text extracted from the plan response. -/
def planStr (env : LifeEnv) (k : Nat) : String :=
  ((env.jsonParse (planText env k)).bind (fun p => jsGetStr p "plan")).getD (planText env k)

/-- The plan state file written on a standard-path iteration. -/
def planWritten (env : LifeEnv) (k : Nat) (it : Nat) (msgs : List QueueMessage) : IterationState :=
  { iteration := (it : Int), step := .plan, timestamp := 0
    input := .arr (msgs.map queueMessageToJson), output := planOutput env k
    tokensUsed := (env.oracle k).usage, complexity := some (planComplexity env k) }

/-- The execute state file written on a standard-path iteration whose tool
loop resolves in one turn (at call index `k`). -/
def execWritten (env : LifeEnv) (k : Nat) (it : Nat) (plan : String) : IterationState :=
  { iteration := (it : Int), step := .execute, timestamp := 0, input := .str plan
    output := noToolsOutput env k, tokensUsed := addTokens ⟨0, 0⟩ (env.oracle k).usage
    complexity := none }

set_option maxHeartbeats 2000000 in
lemma iterationSteps_standard (config : AgentConfig) (env : LifeEnv)
    (cn : CompactionLevel) (st : LifeState) (m : QueueMessage)
    (hOracle : ∀ k, getToolUseBlocks (env.oracle k).content = [])
    (hFresh : ∀ s ∈ st.allStates, s.iteration ≠ (st.iteration : Int))
    (hns : ¬ (st.lastComplexity = .simple ∧ st.iteration > 1)) :
    ∃ p e re c,
      (iterationSteps config env cn st m).1.files =
        st.files ++ [(st.iteration, .plan, p), (st.iteration, .execute, e),
          (st.iteration, .reflect, re)] ∧
      p.complexity = some c ∧
      (iterationSteps config env cn st m).1.lastComplexity = c ∧
      (iterationSteps config env cn st m).1.callIdx = st.callIdx + 3 := by
  have hufp : (st.lastComplexity == Complexity.simple && decide (st.iteration > 1)) = false := by
    rcases Classical.em (st.lastComplexity = Complexity.simple) with h | h
    · have hb : ¬ st.iteration > 1 := fun hb => hns ⟨h, hb⟩
      simp [h, hb]
    · simp [h]
  have hrc := reflectComplexityOf_append st hFresh
  simp only [iterationSteps, hufp, Bool.false_eq_true, if_false, writeStateFile]
  rw [doPlan_full]
  dsimp only
  rw [doExecute_full_noTools config env _ _ _ _ (hOracle _)]
  dsimp only
  rw [doReflect_full]
  dsimp only
  cases hdec : (reflectDecisionOf env (st.callIdx + 1 + 1) st.iteration).decision <;>
    simp only [hdec] <;>
    split <;>
    refine ⟨planWritten env st.callIdx st.iteration [m],
      execWritten env (st.callIdx + 1) st.iteration (planStr env st.callIdx),
      reflectWritten env (st.callIdx + 1 + 1) st.iteration, planComplexity env st.callIdx,
      ?_, rfl, ?_, ?_⟩ <;>
    simp [sendViaQueue_files, sendViaQueue_callIdx, sendViaQueue_lastComplexity, freshId,
      planWritten, planOutput, planStr, execWritten, reflectWritten, List.append_assoc] <;>
    exact hrc _ [execWritten env (st.callIdx + 1) st.iteration (planStr env st.callIdx)]
      rfl (Or.inl rfl) _ rfl

lemma compactIterations_fresh (st : LifeState)
    (hFresh : ∀ s ∈ st.allStates, s.iteration ≠ (st.iteration : Int)) :
    ∀ s ∈ compactIterations st.allStates (st.iteration : Int),
      s.iteration ≠ (st.iteration : Int) := by
  intro s hs
  have hmem : s.iteration ∈
      (compactIterations st.allStates (st.iteration : Int)).map (·.iteration) :=
    List.mem_map_of_mem _ hs
  rw [compactIterations_iterations] at hmem
  obtain ⟨s₀, hs₀, he⟩ := List.mem_map.mp hmem
  rw [← he]
  exact hFresh s₀ hs₀

/-! ## C3 -/

/-- C3: when every scripted response resolves without tool calls and the
in-memory list holds no states of the current iteration, an iteration
whose predecessor recorded complexity `simple` (and which is not the
first) runs the fast path — one plan-execute step then reflect, 2 LLM
calls, writing the `plan-execute` and `reflect` state files — while the
first iteration or one following a `complex` iteration runs the standard
path — plan, execute, reflect, 3 LLM calls and three state files.  In
both cases the complexity recorded in the written plan(-execute) state is
exactly the `lastComplexity` driving the next iteration's path choice. -/
theorem fast_path_selection (config : AgentConfig) (env : LifeEnv) (st : LifeState)
    (m : QueueMessage)
    (hOracle : ∀ k, getToolUseBlocks (env.oracle k).content = [])
    (hFresh : ∀ s ∈ st.allStates, s.iteration ≠ (st.iteration : Int)) :
    (st.lastComplexity = .simple ∧ st.iteration > 1 →
      ∃ pe re c,
        (iterationBody config env st m).1.files =
          st.files ++ [(st.iteration, .planExecute, pe), (st.iteration, .reflect, re)] ∧
        pe.complexity = some c ∧
        (iterationBody config env st m).1.lastComplexity = c ∧
        (iterationBody config env st m).1.callIdx = st.callIdx + 2) ∧
    (¬ (st.lastComplexity = .simple ∧ st.iteration > 1) →
      ∃ p e re c,
        (iterationBody config env st m).1.files =
          st.files ++ [(st.iteration, .plan, p), (st.iteration, .execute, e),
            (st.iteration, .reflect, re)] ∧
        p.complexity = some c ∧
        (iterationBody config env st m).1.lastComplexity = c ∧
        (iterationBody config env st m).1.callIdx = st.callIdx + 3) := by
  have hbody : ∀ goal : (LifeState × Option LifeExit) → Prop,
      (∀ cn st', (st'.files = st.files ∧ st'.callIdx = st.callIdx ∧
          st'.lastComplexity = st.lastComplexity ∧ st'.iteration = st.iteration) →
        (∀ s ∈ st'.allStates, s.iteration ≠ (st'.iteration : Int)) →
        goal (iterationSteps config env cn st' m)) →
      goal (iterationBody config env st m) := by
    intro goal hg
    unfold iterationBody
    by_cases hcomp : checkCompactionNeeded st.ctxEstimate (getContextLimit config.model) =
        CompactionLevel.hard
    · simp only [hcomp, if_true]
      exact hg _ _ ⟨rfl, rfl, rfl, rfl⟩ (compactIterations_fresh st hFresh)
    · simp only [if_neg hcomp]
      exact hg _ _ ⟨rfl, rfl, rfl, rfl⟩ hFresh
  constructor
  · rintro ⟨h1, h2⟩
    refine hbody (fun out => ∃ pe re c,
      out.1.files = st.files ++ [(st.iteration, .planExecute, pe), (st.iteration, .reflect, re)] ∧
      pe.complexity = some c ∧ out.1.lastComplexity = c ∧ out.1.callIdx = st.callIdx + 2)
      (fun cn st' hfr hFresh' => ?_)
    obtain ⟨hf, hc, hl, hi⟩ := hfr
    obtain ⟨pe, re, c, e1, e2, e3, e4⟩ := iterationSteps_fast config env cn st' m hOracle hFresh'
      (by rw [hl]; exact h1) (by rw [hi]; exact h2)
    exact ⟨pe, re, c, by rw [e1, hf, hi], e2, e3, by rw [e4, hc]⟩
  · intro hns
    refine hbody (fun out => ∃ p e re c,
      out.1.files = st.files ++ [(st.iteration, .plan, p), (st.iteration, .execute, e),
        (st.iteration, .reflect, re)] ∧
      p.complexity = some c ∧ out.1.lastComplexity = c ∧ out.1.callIdx = st.callIdx + 3)
      (fun cn st' hfr hFresh' => ?_)
    obtain ⟨hf, hc, hl, hi⟩ := hfr
    obtain ⟨p, e, re, c, e1, e2, e3, e4⟩ := iterationSteps_standard config env cn st' m hOracle
      hFresh' (by rw [hl, hi]; exact hns)
    exact ⟨p, e, re, c, by rw [e1, hf, hi], e2, e3, by rw [e4, hc]⟩

/-- A script whose responses never request tools and never parse as JSON. -/
def envC3 : LifeEnv :=
  { oracle := fun _ => { content := [.text "t"], stopReason := some "end_turn", usage := ⟨1, 1⟩ }
    jsonParse := fun _ => none
    execTool := fun _ _ => ""
    readSession := fun _ => none }

def stFast : LifeState := { stW with lastComplexity := .simple, iteration := 2 }

theorem fast_path_selection_witness :
    (∀ k, getToolUseBlocks ((envC3.oracle k)).content = []) ∧
    (∀ s ∈ stW.allStates, s.iteration ≠ (stW.iteration : Int)) ∧
    ¬ (stW.lastComplexity = .simple ∧ stW.iteration > 1) ∧
    (stFast.lastComplexity = .simple ∧ stFast.iteration > 1) ∧
    (∃ p e re c,
      (iterationBody cfgW envC3 stW (taskMsgTo "w")).1.files =
        stW.files ++ [(stW.iteration, .plan, p), (stW.iteration, .execute, e),
          (stW.iteration, .reflect, re)] ∧
      p.complexity = some c ∧
      (iterationBody cfgW envC3 stW (taskMsgTo "w")).1.lastComplexity = c ∧
      (iterationBody cfgW envC3 stW (taskMsgTo "w")).1.callIdx = stW.callIdx + 3) ∧
    (∃ pe re c,
      (iterationBody cfgW envC3 stFast (taskMsgTo "w")).1.files =
        stFast.files ++ [(stFast.iteration, .planExecute, pe), (stFast.iteration, .reflect, re)] ∧
      pe.complexity = some c ∧
      (iterationBody cfgW envC3 stFast (taskMsgTo "w")).1.lastComplexity = c ∧
      (iterationBody cfgW envC3 stFast (taskMsgTo "w")).1.callIdx = stFast.callIdx + 2) :=
  ⟨fun _ => rfl, by simp [stW], by decide, by decide,
    (fast_path_selection cfgW envC3 stW (taskMsgTo "w") (fun _ => rfl) (by simp [stW])).2
      (by decide),
    (fast_path_selection cfgW envC3 stFast (taskMsgTo "w") (fun _ => rfl)
      (by simp [stFast, stW])).1 (by decide)⟩

end SealTeam
